import Mathlib

/-!
# interfacer: the generation pipeline of `cmd/interfacer/main.go`

A shallow embedding of the command's functions (`packageInfo`, `parseQuery`,
`createInterface`, `generateCode`, `writeOutput`, `interfacer`, `run`) and of
its template `tmpl`, followed by theorems about them.

Conventions.

* A Go `string` / `[]byte` is a `GoString`, a list of characters.  The only
  characters the program inspects (`.`, `/`, the path separator, `-`) are
  ASCII, for which byte positions and character positions of a string agree.
* A Go result `(T, error)` of a function of this program is a pair whose
  second component is `Option GoError` (`none` is the `nil` error).
* The libraries the program calls (`packages.Load`, `interfaces.ParseQuery`,
  `interfaces.NewWithOptions`, `format.Source`, `os.OpenFile`,
  `(*os.File).Write`) are fields of an environment `Env`: the program is
  verified for every behaviour of them.  Every call is recorded in the
  `trace` of the `World`.
-/

set_option autoImplicit false

namespace Interfacer

/-! ## Strings and errors -/

/-- A Go string or byte slice. -/
abbrev GoString := List Char

/-- A Go `error` value: one made by `errors.New` or handed back by a library,
or the result of `fmt.Errorf("%w", inner)`. -/
inductive GoError where
  | new (msg : GoString)
  | wrap (inner : GoError)
  deriving DecidableEq, Repr

namespace GoError

/-- The `Error()` text: `fmt.Errorf("%w", inner)` prints the text of `inner`. -/
def Error : GoError → GoString
  | new msg => msg
  | wrap inner => inner.Error

/-- The chain walked by `errors.Is`: the error itself, then what it wraps. -/
def chain : GoError → List GoError
  | new msg => [new msg]
  | wrap inner => wrap inner :: inner.chain

/-- The test `errors.Is(err, target)`. -/
def Is (err target : GoError) : Bool :=
  decide (target ∈ err.chain)

end GoError

def errEmptyForOpt : GoError := GoError.new "empty -for option value".toList

def errEmptyTypeNameOpt : GoError := GoError.new "empty -type option value".toList

def errEmptyAsOpt : GoError := GoError.new "empty -as option value".toList

def errEmptyOutputOpt : GoError := GoError.new "empty -out option value".toList

/-- The test `strings.HasPrefix(s, pre)`. -/
def HasPrefix (s pre : GoString) : Bool :=
  pre.isPrefixOf s

/-- The function `strings.ReplaceAll(s, string(old), string(new))` for
one-character `old` and `new`. -/
def ReplaceAll (s : GoString) (old new : Char) : GoString :=
  s.map fun c => if c = old then new else c

/-- The function `filepath.ToSlash`; `Separator` is `os.PathSeparator`
(`/` on Unix, `\` on Windows). -/
def ToSlash (Separator : Char) (path : GoString) : GoString :=
  if Separator = '/' then path else ReplaceAll path Separator '/'

/-- The function `strings.IndexRune(s, r)`: the index of the first `r` in `s`,
or `-1`. -/
def IndexRune : GoString → Char → Int
  | [], _ => -1
  | c :: cs, r =>
    if c = r then 0
    else if IndexRune cs r = -1 then -1 else IndexRune cs r + 1

/-- The slice expression `s[:i]`. -/
def sliceTo (s : GoString) (i : Int) : GoString :=
  s.take i.toNat

/-- The slice expression `s[i:]`. -/
def sliceFrom (s : GoString) (i : Int) : GoString :=
  s.drop i.toNat

/-! ## Library data -/

/-- The type `packages.Package`, reduced to its `ID`. -/
structure Package where
  ID : GoString
  deriving DecidableEq, Repr

/-- The method `(*packages.Package).String`, which returns the `ID`. -/
def Package.String (p : Package) : GoString :=
  p.ID

/-- The type `packages.Config`, reduced to the field the program sets. -/
structure Config where
  Dir : GoString
  deriving DecidableEq, Repr

/-- The type `interfaces.Query`. -/
structure Query where
  TypeName : GoString
  Package : GoString
  deriving DecidableEq, Repr

/-- The type `interfaces.Options`, reduced to the fields the program sets. -/
structure Options where
  Query : Query
  Unexported : Bool
  deriving DecidableEq, Repr

/-- The type `interfaces.Interface` (a slice of `Func`), reduced to what the
program observes of it: `Funcs` holds the `String()` text of each `Func`, in
the order of the slice, and `deps` is the result of its `Deps()` method. -/
structure Interface where
  Funcs : List GoString
  deps : List GoString
  deriving DecidableEq, Repr

/-- The method `interfaces.Interface.Deps`. -/
def Interface.Deps (i : Interface) : List GoString :=
  i.deps

/-- The struct `vars`, the data the template is executed on.  Its field `Type`
is named `Type_` here, `Type` being a keyword. -/
structure vars where
  PackageName : GoString
  InterfaceName : GoString
  Type_ : GoString
  Deps : List GoString
  Interface : Interface
  deriving DecidableEq, Repr

/-! ## The template -/

/-- A piece of the body of a `range`: literal text, or the action `{{.}}`
that prints the current element. -/
inductive Elem where
  | text (s : GoString)
  | dot
  deriving DecidableEq, Repr

/-- A top-level node of a template: literal text, the action `{{.name}}` that
prints a field, or `{{range .name}}body{{end}}`. -/
inductive Node where
  | text (s : GoString)
  | field (name : String)
  | range (name : String) (body : List Elem)
  deriving DecidableEq, Repr

/-- The template `tmpl`, as `template.Parse` splits its text. -/
def tmpl : List Node :=
  [ .text "// Code generated by interfacer; DO NOT EDIT\n\npackage ".toList,
    .field "PackageName",
    .text "\n\nimport (\n".toList,
    .range "Deps" [.text "\t\"".toList, .dot, .text "\"\n".toList],
    .text ")\n\n// ".toList,
    .field "InterfaceName",
    .text " is an interface generated for ".toList,
    .field "Type",
    .text ".\ntype ".toList,
    .field "InterfaceName",
    .text " interface \x7b\n".toList,
    .range "Interface" [.text "\t".toList, .dot, .text "\n".toList],
    .text "\x7d\n".toList ]

/-- The string-valued fields of `vars`, by name. -/
def vars.stringField (v : vars) (name : String) : Option GoString :=
  if name = "PackageName" then some v.PackageName
  else if name = "InterfaceName" then some v.InterfaceName
  else if name = "Type" then some v.Type_
  else none

/-- The slice-valued fields of `vars`, by name, each element as the template
prints it: a dependency is a string, a method prints by its `String()`. -/
def vars.sliceField (v : vars) (name : String) : Option (List GoString) :=
  if name = "Deps" then some v.Deps
  else if name = "Interface" then some v.Interface.Funcs
  else none

/-- The error of `text/template` for a field it cannot evaluate. -/
def errNoField (name : String) : GoError :=
  GoError.new ("cannot evaluate field ".toList ++ name.toList)

/-- Execution of a `range` body with the dot set to the element `x`. -/
def execBody (x : GoString) : List Elem → GoString
  | [] => []
  | .text s :: es => s ++ execBody x es
  | .dot :: es => x ++ execBody x es

/-- Execution of a `range` over the elements `xs`: the body once per element,
in the order of the slice. -/
def execRange (body : List Elem) : List GoString → GoString
  | [] => []
  | x :: xs => execBody x body ++ execRange body xs

/-- Execution of one top-level node on the data `v`.  The actions interpreted
are the two kinds `tmpl` has: a string field printed, a slice field ranged
over; a name that is no such field of `vars` is an execution error. -/
def execNode (v : vars) : Node → Except GoError GoString
  | .text s => .ok s
  | .field name =>
    match v.stringField name with
    | some s => .ok s
    | none => .error (errNoField name)
  | .range name body =>
    match v.sliceField name with
    | some xs => .ok (execRange body xs)
    | none => .error (errNoField name)

/-- The method `(*template.Template).Execute` into a `bytes.Buffer`: the nodes
are executed in order and their output concatenated; the first error stops
the execution. -/
def Execute : List Node → vars → Except GoError GoString
  | [], _ => .ok []
  | n :: ns, v =>
    match execNode v n with
    | .error err => .error err
    | .ok s =>
      match Execute ns v with
      | .error err => .error err
      | .ok t => .ok (s ++ t)

/-! ## The world and the libraries -/

/-- An open file: standard output, or the file opened under a name. -/
inductive File where
  | Stdout
  | named (name : GoString)
  deriving DecidableEq, Repr

/-- A call of a library function, as recorded in the trace. -/
inductive Event where
  | Load (cfg : Config) (patterns : List GoString)
  | Fatalf (msg : GoString)
  | ParseQuery (query : GoString)
  | NewWithOptions (opts : Options)
  | Source (src : GoString)
  | OpenFile (name : GoString)
  | Write (f : File) (b : GoString)
  | Close (f : File)
  deriving DecidableEq, Repr

/-- The state the program acts on: what has been written to standard output,
the content of each file (`none`: no such file), and the library calls made
so far, oldest first. -/
structure World where
  stdout : GoString
  files : GoString → Option GoString
  trace : List Event

/-- The world after one more library call. -/
def World.log (w : World) (e : Event) : World :=
  { w with trace := w.trace ++ [e] }

/-- The behaviour of what the program calls and does not define: whether the
operating system is Windows, and the library functions.  `Write f b` is `none` when the whole of `b` is written, and `some (n, err)`
when the write stops after at most `n` bytes with the error `err`. -/
structure Env where
  windows : Bool
  Load : Config → List GoString → Except GoError (List Package)
  ParseQuery : GoString → Except GoError Query
  NewWithOptions : Options → Except GoError Interface
  Source : GoString → Except GoError GoString
  OpenFile : GoString → Option GoError
  Write : File → GoString → Option (Nat × GoError)

/-- The constant `os.PathSeparator`: `\` on Windows, `/` elsewhere. -/
def Env.Separator (E : Env) : Char :=
  if E.windows then '\\' else '/'

/-- How a function of the program ends: it returns a value, or the process
is ended by `os.Exit` (here through `log.Fatalf`), or by the run-time panic
of a nil pointer dereference; each in a world. -/
inductive Outcome (α : Type) where
  | returned (val : α) (w : World)
  | exited (code : Nat) (w : World)
  | panicked (w : World)

/-- The values of the command-line flags after `flag.Parse`. -/
structure Flags where
  optRpath : GoString
  optTypename : GoString
  optAs : GoString
  optOutput : GoString
  optAll : Bool
  deriving DecidableEq, Repr

/-- The bytes `b` arriving in the open file `f`. -/
def World.append (w : World) (f : File) (b : GoString) : World :=
  match f with
  | .Stdout => { w with stdout := w.stdout ++ b }
  | .named name =>
    { w with files := Function.update w.files name (some ((w.files name).getD [] ++ b)) }

/-- The call `os.OpenFile(name, O_TRUNC|O_CREATE|O_WRONLY, 0o644)`: on failure
the files are as before; on success the file exists and is empty. -/
def OpenFile (E : Env) (name : GoString) (w : World) : Except GoError File × World :=
  match E.OpenFile name with
  | some err => (.error err, w.log (.OpenFile name))
  | none =>
    (.ok (.named name),
      { w.log (.OpenFile name) with files := Function.update w.files name (some []) })

/-- The call `f.Write(b)`: all of `b` arrives and the error is `nil`, or a
part of it arrives and the error is not `nil`. -/
def Write (E : Env) (f : File) (b : GoString) (w : World) : Option GoError × World :=
  match E.Write f b with
  | none => (none, (w.log (.Write f b)).append f b)
  | some (n, err) => (some err, (w.log (.Write f b)).append f (b.take n))

/-! ## The program -/

def packageInfo (E : Env) (dir : GoString) (w : World) : Outcome (GoString × Option GoError) :=
  let dir := ToSlash E.Separator dir
  if HasPrefix dir "./".toList || HasPrefix dir "../".toList then
    let cfg : Config := { Dir := dir }
    let w1 := w.log (.Load cfg ["./".toList])
    match E.Load cfg ["./".toList] with
    | .error err => .returned ([], some (.wrap err)) w1
    | .ok pkgs =>
      match pkgs with
      | [] => .exited 1 (w1.log (.Fatalf ("No packages found in ".toList ++ dir)))
      | p :: _ => .returned (p.String, none) w1
  else
    .returned (dir, none) w

def parseQuery (E : Env) (forPackage typename : GoString) (w : World) :
    (Option Query × Option GoError) × World :=
  let query := forPackage ++ ".".toList ++ typename
  match E.ParseQuery query with
  | .error err => ((none, some (.wrap err)), w.log (.ParseQuery query))
  | .ok q => ((some q, none), w.log (.ParseQuery query))

def createInterface (E : Env) (q : Query) (all : Bool) (w : World) :
    (Option Interface × Option GoError) × World :=
  let opts : Options := { Query := q, Unexported := all }
  match E.NewWithOptions opts with
  | .error err => ((none, some (.wrap err)), w.log (.NewWithOptions opts))
  | .ok itf => ((some itf, none), w.log (.NewWithOptions opts))

def generateCode (E : Env) (v : vars) (w : World) :
    (Option GoString × Option GoError) × World :=
  match Execute tmpl v with
  | .error err => ((none, some (.wrap err)), w)
  | .ok buf =>
    match E.Source buf with
    | .error err => ((none, some (.wrap err)), w.log (.Source buf))
    | .ok out => ((some out, none), w.log (.Source buf))

def writeOutput (E : Env) (output formatted : GoString) (w : World) : Option GoError × World :=
  if output ≠ "-".toList then
    match OpenFile E output w with
    | (.error err, w1) => (some (.wrap err), w1)
    | (.ok outputWriter, w1) =>
      match Write E outputWriter formatted w1 with
      | (some err, w2) => (some (.wrap err), w2.log (.Close outputWriter))
      | (none, w2) => (none, w2.log (.Close outputWriter))
  else
    match Write E .Stdout formatted w with
    | (some err, w1) => (some (.wrap err), w1)
    | (none, w1) => (none, w1)

/-- The render model `interfacer` builds in its variable `variables`, from
the parsed query, the interface obtained and the value of `-as`. -/
def newVars (parsedQuery : Query) (generatedInterface : Interface) (optAs : GoString) : vars :=
  let Type_ := "\"".toList ++ (parsedQuery.Package ++ ".".toList ++ parsedQuery.TypeName) ++ "\"".toList
  let Deps := generatedInterface.Deps
  let i := IndexRune optAs '.'
  if i ≠ -1 then
    { PackageName := sliceTo optAs i, InterfaceName := sliceFrom optAs (i + 1),
      Type_ := Type_, Deps := Deps, Interface := generatedInterface }
  else
    { PackageName := [], InterfaceName := optAs,
      Type_ := Type_, Deps := Deps, Interface := generatedInterface }

/-- The interface value behind a possibly nil `interfaces.Interface`: the nil
slice has no methods and no dependencies. -/
def Interface.ofNilable : Option Interface → Interface
  | some itf => itf
  | none => { Funcs := [], deps := [] }

def interfacer (E : Env) (F : Flags) (w : World) : Outcome (Option GoError) :=
  match packageInfo E F.optRpath w with
  | .exited code w1 => .exited code w1
  | .panicked w1 => .panicked w1
  | .returned (_, some err) w1 => .returned (some err) w1
  | .returned (forPackage, none) w1 =>
    match parseQuery E forPackage F.optTypename w1 with
    | ((_, some err), w2) => .returned (some err) w2
    | ((none, none), w2) => .panicked w2
    | ((some parsedQuery, none), w2) =>
      match createInterface E parsedQuery F.optAll w2 with
      | ((_, some err), w3) => .returned (some err) w3
      | ((generatedInterface, none), w3) =>
        let vs := newVars parsedQuery (Interface.ofNilable generatedInterface) F.optAs
        match Execute tmpl vs with
        | .error err => .returned (some (.wrap err)) w3
        | .ok _ =>
          match generateCode E vs w3 with
          | ((_, some err), w4) => .returned (some (.wrap err)) w4
          | ((formatted, none), w4) =>
            match writeOutput E F.optOutput (formatted.getD []) w4 with
            | (err, w5) => .returned err w5

def run (E : Env) (F : Flags) (w : World) : Outcome (Option GoError) :=
  if F.optRpath = [] then .returned (some (.wrap errEmptyForOpt)) w
  else if F.optTypename = [] then .returned (some (.wrap errEmptyTypeNameOpt)) w
  else if F.optAs = [] then .returned (some (.wrap errEmptyAsOpt)) w
  else if F.optOutput = [] then .returned (some (.wrap errEmptyOutputOpt)) w
  else
    match interfacer E F w with
    | .returned (some err) w1 => .returned (some err) w1
    | .returned none w1 => .returned none w1
    | .exited code w1 => .exited code w1
    | .panicked w1 => .panicked w1


/-! ## Notions used in the statements -/

/-- The world an outcome ends in. -/
def Outcome.world {α : Type} : Outcome α → World
  | .returned _ w => w
  | .exited _ w => w
  | .panicked w => w

/-- The lines of a text: the pieces between its line feeds. -/
def splitLines : GoString → List GoString
  | [] => [[]]
  | c :: cs =>
    if c = '\n' then [] :: splitLines cs
    else
      match splitLines cs with
      | [] => [[c]]
      | l :: ls => (c :: l) :: ls

/-- The text made of the given lines, a line feed between two of them. -/
def joinLines : List GoString → GoString
  | [] => []
  | [l] => l
  | l :: ls => l ++ '\n' :: joinLines ls

/-- The line of the import block for the dependency `d`, line feed included. -/
def importLine (d : GoString) : GoString :=
  "\t\"".toList ++ d ++ "\"\n".toList

/-- The line of the interface body for the method `m`, line feed included. -/
def methodLine (m : GoString) : GoString :=
  "\t".toList ++ m ++ "\n".toList

/-- The lines of a text between its first line `import (` and the next line
`)`: the entries of the import block. -/
def importBlock (text : GoString) : List GoString :=
  match (splitLines text).dropWhile (fun l => l != "import (".toList) with
  | [] => []
  | _ :: rest => rest.takeWhile (fun l => l != ")".toList)

/-- What `interfacer`, run with the flags `F`, can add to the trace. -/
def NewEvent (E : Env) (F : Flags) : Event → Prop
  | .Source src =>
    ∃ forPackage q itf, E.ParseQuery (forPackage ++ ".".toList ++ F.optTypename) = .ok q
      ∧ E.NewWithOptions { Query := q, Unexported := F.optAll } = .ok itf
      ∧ Execute tmpl (newVars q itf F.optAs) = .ok src
  | .Write _ b =>
    ∃ src,
      (∃ forPackage q itf, E.ParseQuery (forPackage ++ ".".toList ++ F.optTypename) = .ok q
        ∧ E.NewWithOptions { Query := q, Unexported := F.optAll } = .ok itf
        ∧ Execute tmpl (newVars q itf F.optAs) = .ok src)
      ∧ E.Source src = .ok b
  | .OpenFile name => name = F.optOutput
  | _ => True

/-- The lines of a text between its first line that starts with `type ` and
the next line that is the closing brace: the lines of the interface body. -/
def methodBlock (text : GoString) : List GoString :=
  match (splitLines text).dropWhile (fun l => !("type ".toList.isPrefixOf l)) with
  | [] => []
  | _ :: rest => rest.takeWhile (fun l => l != "\x7d".toList)

/-! ## The canonicalizer on a text of the template -/

/-- The lexicographic order of strings, by character code. -/
def strLess : GoString → GoString → Bool
  | _, [] => false
  | [], _ :: _ => true
  | a :: as, b :: bs => a.toNat < b.toNat || (a.toNat == b.toNat && strLess as bs)

/-- The strings are in increasing order: none is less than the one before
it.  The list `Deps()` of the library, sorted by `sort.Strings`, is so. -/
def increasing : List GoString → Bool
  | [] => true
  | [_] => true
  | a :: b :: rest => !strLess b a && increasing (b :: rest)

/-- The import path of an entry of the import block: the line without the
tab and the quote before the path and without the quote after it. -/
def importPath (l : GoString) : GoString :=
  (l.drop 2).dropLast

/-- Insertion of an entry into entries sorted by import path. -/
def insertLine (l : GoString) : List GoString → List GoString
  | [] => [l]
  | m :: ms =>
    if strLess (importPath m) (importPath l) then m :: insertLine l ms else l :: m :: ms

/-- The given entries in increasing order of import path. -/
def sortLines : List GoString → List GoString
  | [] => []
  | l :: ls => insertLine l (sortLines ls)

/-- What `format.Source` makes of a text of `tmpl` that it accepts and whose
lines are in canonical form already: through `ast.SortImports` the entries of
the import block come out in increasing order of import path; the rest of
the text is left as it is. -/
def sortImports (src : GoString) : GoString :=
  let ls := splitLines src
  match ls.dropWhile (fun l => l != "import (".toList) with
  | [] => src
  | hd :: rest =>
    joinLines (ls.takeWhile (fun l => l != "import (".toList)
      ++ hd :: (sortLines (rest.takeWhile (fun l => l != ")".toList))
      ++ rest.dropWhile (fun l => l != ")".toList)))

/-! ## Sample inputs -/

/-- A sample environment: the loader finds one package, the query parser and
the extractor accept, the canonicalizer sorts the import block, files open
and writes are complete. -/
def sampleEnv (windows : Bool) : Env where
  windows := windows
  Load := fun _ _ => .ok [{ ID := "example.com/svc".toList }]
  ParseQuery := fun _ => .ok { TypeName := "Repo".toList, Package := "example.com/svc".toList }
  NewWithOptions := fun _ =>
    .ok { Funcs := ["Put(ctx context.Context, r io.Reader) error".toList,
                    "Get(ctx context.Context, w io.Writer) error".toList],
          deps := ["context".toList, "io".toList] }
  Source := fun src => .ok (sortImports src)
  OpenFile := fun _ => none
  Write := fun _ _ => none

/-- A sample environment in which every library call fails. -/
def failingEnv : Env where
  windows := false
  Load := fun _ _ => .error (.new "load failed".toList)
  ParseQuery := fun _ => .error (.new "bad query".toList)
  NewWithOptions := fun _ => .error (.new "no such type".toList)
  Source := fun _ => .error (.new "syntax error".toList)
  OpenFile := fun _ => some (.new "permission denied".toList)
  Write := fun _ _ => some (0, .new "short write".toList)

/-- The world before the run: nothing written, no file, no call made. -/
def emptyWorld : World where
  stdout := []
  files := fun _ => none
  trace := []

/-- A sample query. -/
def sampleQuery : Query where
  TypeName := "Repo".toList
  Package := "example.com/svc".toList

/-- A render model whose two dependencies are not in increasing order. -/
def unsortedVars : vars where
  PackageName := "svc".toList
  InterfaceName := "RepoIface".toList
  Type_ := "\"example.com/svc.Repo\"".toList
  Deps := ["io".toList, "context".toList]
  Interface := { Funcs := ["Get(ctx context.Context, w io.Writer) error".toList],
                 deps := ["io".toList, "context".toList] }

/-- A render model whose two dependencies are in increasing order. -/
def sortedVars : vars where
  PackageName := "svc".toList
  InterfaceName := "RepoIface".toList
  Type_ := "\"example.com/svc.Repo\"".toList
  Deps := ["context".toList, "io".toList]
  Interface := { Funcs := ["Put(ctx context.Context, r io.Reader) error".toList,
                           "Get(ctx context.Context, w io.Writer) error".toList],
                 deps := ["context".toList, "io".toList] }

/-! # Theorems -/

/-! ## The template -/

theorem execRange_three (a b : GoString) (xs : List GoString) :
    execRange [.text a, .dot, .text b] xs = (xs.map fun x => a ++ x ++ b).flatten := by
  induction xs with
  | nil => rfl
  | cons x xs ih => simp [execRange, execBody, ih]

theorem execRange_deps (xs : List GoString) :
    execRange [.text "\t\"".toList, .dot, .text "\"\n".toList] xs
      = (xs.map importLine).flatten :=
  execRange_three _ _ xs

theorem execRange_methods (xs : List GoString) :
    execRange [.text "\t".toList, .dot, .text "\n".toList] xs = (xs.map methodLine).flatten :=
  execRange_three _ _ xs

theorem Execute_tmpl (v : vars) :
    Execute tmpl v = .ok
      ("// Code generated by interfacer; DO NOT EDIT\n\npackage ".toList ++ (v.PackageName
        ++ ("\n\nimport (\n".toList ++ ((v.Deps.map importLine).flatten
        ++ (")\n\n// ".toList ++ (v.InterfaceName ++ (" is an interface generated for ".toList
        ++ (v.Type_ ++ (".\ntype ".toList ++ (v.InterfaceName ++ (" interface \x7b\n".toList
        ++ ((v.Interface.Funcs.map methodLine).flatten ++ "\x7d\n".toList)))))))))))) := by
  rw [← execRange_deps, ← execRange_methods]
  rfl


/-! ## Strings -/

theorem IndexRune_neg_one_or_nonneg (s : GoString) (r : Char) :
    IndexRune s r = -1 ∨ 0 ≤ IndexRune s r := by
  induction s with
  | nil => left; rfl
  | cons c cs ih =>
    unfold IndexRune
    split_ifs with h1 h2
    · right; exact le_refl _
    · left; rfl
    · right; rcases ih with h | h
      · exact absurd h h2
      · omega

theorem IndexRune_eq_neg_one_iff (s : GoString) (r : Char) :
    IndexRune s r = -1 ↔ r ∉ s := by
  induction s with
  | nil => simp [IndexRune]
  | cons c cs ih =>
    unfold IndexRune
    have h0 := IndexRune_neg_one_or_nonneg cs r
    split_ifs with h1 h2
    · subst h1; simp
    · simp only [true_iff, List.mem_cons, not_or]
      exact ⟨fun h => h1 h.symm, ih.mp h2⟩
    · have : r ∈ cs := by
        by_contra hc
        exact h2 (ih.mpr hc)
      constructor
      · intro h; omega
      · intro h; exact absurd (List.mem_cons_of_mem _ this) h

theorem IndexRune_split (s : GoString) (r : Char) (h : r ∈ s) :
    r ∉ sliceTo s (IndexRune s r)
      ∧ sliceTo s (IndexRune s r) ++ r :: sliceFrom s (IndexRune s r + 1) = s := by
  induction s with
  | nil => simp at h
  | cons c cs ih =>
    unfold IndexRune
    have h0 := IndexRune_neg_one_or_nonneg cs r
    split_ifs with h1 h2
    · subst h1; simp [sliceTo, sliceFrom]
    · exfalso
      have := (IndexRune_eq_neg_one_iff cs r).mp h2
      rcases List.mem_cons.mp h with h3 | h3
      · exact h1 h3.symm
      · exact this h3
    · have hmem : r ∈ cs := by
        by_contra hc
        exact h2 ((IndexRune_eq_neg_one_iff cs r).mpr hc)
      have hi : 0 ≤ IndexRune cs r := by
        rcases h0 with h | h
        · exact absurd h h2
        · exact h
      obtain ⟨ih1, ih2⟩ := ih hmem
      have e1 : (IndexRune cs r + 1).toNat = (IndexRune cs r).toNat + 1 := by omega
      have e2 : (IndexRune cs r + 1 + 1).toNat = (IndexRune cs r + 1).toNat + 1 := by omega
      simp only [sliceTo, sliceFrom] at ih1 ih2 ⊢
      rw [e2, e1, List.take_succ_cons, List.drop_succ_cons]
      refine ⟨?_, ?_⟩
      · intro hm
        rcases List.mem_cons.mp hm with h3 | h3
        · exact h1 h3.symm
        · exact ih1 h3
      · rw [← e1, List.cons_append, ih2]

theorem takeWhile_ne_of_split (p rest : GoString) (r : Char) (h : r ∉ p) :
    (p ++ r :: rest).takeWhile (fun c => c != r) = p := by
  induction p with
  | nil => simp [List.takeWhile]
  | cons c cs ih =>
    have h1 : c ≠ r := fun hc => h (hc ▸ List.mem_cons_self _ _)
    have h2 : r ∉ cs := fun hc => h (List.mem_cons_of_mem _ hc)
    have h3 : (c != r) = true := by simp [h1]
    rw [List.cons_append, List.takeWhile_cons, h3, ih h2]
    rfl

theorem newVars_fields (q : Query) (itf : Interface) (s : GoString) :
    (newVars q itf s).Type_
        = "\"".toList ++ (q.Package ++ ".".toList ++ q.TypeName) ++ "\"".toList
      ∧ (newVars q itf s).Deps = itf.Deps ∧ (newVars q itf s).Interface = itf := by
  by_cases h : IndexRune s '.' = -1 <;> simp [newVars, h]

theorem newVars_no_dot (q : Query) (itf : Interface) (s : GoString) (h : '.' ∉ s) :
    (newVars q itf s).PackageName = [] ∧ (newVars q itf s).InterfaceName = s := by
  have := (IndexRune_eq_neg_one_iff s '.').mpr h
  simp [newVars, this]

theorem newVars_dot (q : Query) (itf : Interface) (s : GoString) (h : '.' ∈ s) :
    (newVars q itf s).PackageName = sliceTo s (IndexRune s '.')
      ∧ (newVars q itf s).InterfaceName = sliceFrom s (IndexRune s '.' + 1) := by
  have : IndexRune s '.' ≠ -1 := fun hc => (IndexRune_eq_neg_one_iff s '.').mp hc h
  simp [newVars, this]

/-! ## The render model -/

/-- C1: the render model splits the value of `-as` at its first `.`: without
a `.` the package name is empty and the interface name is the whole value;
with one, the package name is the dot-free part before the first `.`, the
interface name is all that follows it, and the two joined by `.` give the
value back; `pkg.Name` gives `pkg` and `Name`. -/
theorem newVars_splits_at_first_dot (q : Query) (itf : Interface) (s : GoString) :
    ('.' ∉ s → (newVars q itf s).PackageName = [] ∧ (newVars q itf s).InterfaceName = s)
      ∧ ('.' ∈ s →
          '.' ∉ (newVars q itf s).PackageName
            ∧ (newVars q itf s).PackageName = s.takeWhile (fun c => c != '.')
            ∧ (newVars q itf s).PackageName ++ ".".toList ++ (newVars q itf s).InterfaceName = s)
      ∧ (newVars q itf "pkg.Name".toList).PackageName = "pkg".toList
      ∧ (newVars q itf "pkg.Name".toList).InterfaceName = "Name".toList := by
  refine ⟨newVars_no_dot q itf s, ?_, ?_, ?_⟩
  · intro h
    obtain ⟨h1, h2⟩ := newVars_dot q itf s h
    obtain ⟨h3, h4⟩ := IndexRune_split s '.' h
    rw [h1, h2]
    refine ⟨h3, ?_, ?_⟩
    · have := takeWhile_ne_of_split _ (sliceFrom s (IndexRune s '.' + 1)) '.' h3
      rw [h4] at this
      exact this.symm
    · simpa using h4
  · have := (newVars_dot q itf "pkg.Name".toList (by decide)).1
    rw [this]; decide
  · have := (newVars_dot q itf "pkg.Name".toList (by decide)).2
    rw [this]; decide

/-- C1, witness: the value `a.b.c` is split at its first `.`. -/
theorem newVars_splits_at_first_dot_witness :
    '.' ∉ (newVars sampleQuery { Funcs := [], deps := [] } "a.b.c".toList).PackageName
      ∧ (newVars sampleQuery { Funcs := [], deps := [] } "a.b.c".toList).PackageName
          = "a.b.c".toList.takeWhile (fun c => c != '.')
      ∧ (newVars sampleQuery { Funcs := [], deps := [] } "a.b.c".toList).PackageName
          ++ ".".toList
          ++ (newVars sampleQuery { Funcs := [], deps := [] } "a.b.c".toList).InterfaceName
          = "a.b.c".toList :=
  (newVars_splits_at_first_dot sampleQuery { Funcs := [], deps := [] } "a.b.c".toList).2.1
    (by decide)

/-! ## The steps of the program -/

theorem packageInfo_cases (E : Env) (dir : GoString) (w : World) :
    packageInfo E dir w = .returned (ToSlash E.Separator dir, none) w
      ∨ (∃ err cfg pats, packageInfo E dir w = .returned ([], some err) (w.log (.Load cfg pats)))
      ∨ (∃ id cfg pats, packageInfo E dir w = .returned (id, none) (w.log (.Load cfg pats)))
      ∨ (∃ cfg pats msg,
          packageInfo E dir w = .exited 1 ((w.log (.Load cfg pats)).log (.Fatalf msg))) := by
  unfold packageInfo
  simp only
  split_ifs with h
  · split
    · right; left; exact ⟨_, _, _, rfl⟩
    · split
      · right; right; right; exact ⟨_, _, _, rfl⟩
      · right; right; left; exact ⟨_, _, _, rfl⟩
  · left; rfl

theorem parseQuery_cases (E : Env) (forPackage typename : GoString) (w : World) :
    (∃ err, E.ParseQuery (forPackage ++ ".".toList ++ typename) = .error err
        ∧ parseQuery E forPackage typename w
          = ((none, some (.wrap err)), w.log (.ParseQuery (forPackage ++ ".".toList ++ typename))))
      ∨ (∃ q, E.ParseQuery (forPackage ++ ".".toList ++ typename) = .ok q
        ∧ parseQuery E forPackage typename w
          = ((some q, none), w.log (.ParseQuery (forPackage ++ ".".toList ++ typename)))) := by
  unfold parseQuery
  simp only
  cases h : E.ParseQuery (forPackage ++ ".".toList ++ typename) with
  | error err => left; exact ⟨err, rfl, rfl⟩
  | ok q => right; exact ⟨q, rfl, rfl⟩

theorem createInterface_cases (E : Env) (q : Query) (all : Bool) (w : World) :
    (∃ err, E.NewWithOptions { Query := q, Unexported := all } = .error err
        ∧ createInterface E q all w
          = ((none, some (.wrap err)),
              w.log (.NewWithOptions { Query := q, Unexported := all })))
      ∨ (∃ itf, E.NewWithOptions { Query := q, Unexported := all } = .ok itf
        ∧ createInterface E q all w
          = ((some itf, none), w.log (.NewWithOptions { Query := q, Unexported := all }))) := by
  unfold createInterface
  simp only
  cases h : E.NewWithOptions { Query := q, Unexported := all } with
  | error err => left; exact ⟨err, rfl, rfl⟩
  | ok itf => right; exact ⟨itf, rfl, rfl⟩

theorem generateCode_cases (E : Env) (v : vars) (w : World) :
    (∃ err, Execute tmpl v = .error err ∧ generateCode E v w = ((none, some (.wrap err)), w))
      ∨ (∃ buf err, Execute tmpl v = .ok buf ∧ E.Source buf = .error err
          ∧ generateCode E v w = ((none, some (.wrap err)), w.log (.Source buf)))
      ∨ (∃ buf out, Execute tmpl v = .ok buf ∧ E.Source buf = .ok out
          ∧ generateCode E v w = ((some out, none), w.log (.Source buf))) := by
  unfold generateCode
  cases h : Execute tmpl v with
  | error err => left; exact ⟨err, rfl, rfl⟩
  | ok buf =>
    right
    simp only
    cases h2 : E.Source buf with
    | error err => left; exact ⟨buf, err, rfl, h2, rfl⟩
    | ok out => right; exact ⟨buf, out, rfl, h2, rfl⟩

theorem writeOutput_events (E : Env) (output formatted : GoString) (w : World) (e : Event)
    (he : e ∈ (writeOutput E output formatted w).2.trace) :
    e ∈ w.trace ∨ e = .OpenFile output ∨ (∃ f, e = .Write f formatted) ∨ ∃ f, e = .Close f := by
  unfold writeOutput at he
  split_ifs at he with h
  · unfold OpenFile at he
    cases h1 : E.OpenFile output with
    | some err =>
      rw [h1] at he
      simp only [World.log, List.mem_append, List.mem_singleton] at he
      tauto
    | none =>
      rw [h1] at he
      simp only [Write] at he
      cases h2 : E.Write (.named output) formatted with
      | none =>
        rw [h2] at he
        simp only [World.log, World.append, List.mem_append, List.mem_singleton] at he
        rcases he with ((he | he) | he) | he
        · exact Or.inl he
        · exact Or.inr (Or.inl he)
        · exact Or.inr (Or.inr (Or.inl ⟨_, he⟩))
        · exact Or.inr (Or.inr (Or.inr ⟨_, he⟩))
      | some p =>
        obtain ⟨n, err⟩ := p
        rw [h2] at he
        simp only [World.log, World.append, List.mem_append, List.mem_singleton] at he
        rcases he with ((he | he) | he) | he
        · exact Or.inl he
        · exact Or.inr (Or.inl he)
        · exact Or.inr (Or.inr (Or.inl ⟨_, he⟩))
        · exact Or.inr (Or.inr (Or.inr ⟨_, he⟩))
  · simp only [Write] at he
    cases h2 : E.Write .Stdout formatted with
    | none =>
      rw [h2] at he
      simp only [World.log, World.append, List.mem_append, List.mem_singleton] at he
      rcases he with he | he
      · tauto
      · right; right; left; exact ⟨_, he⟩
    | some p =>
      obtain ⟨n, err⟩ := p
      rw [h2] at he
      simp only [World.log, World.append, List.mem_append, List.mem_singleton] at he
      rcases he with he | he
      · tauto
      · right; right; left; exact ⟨_, he⟩

theorem interfacer_events (E : Env) (F : Flags) (w : World) (e : Event)
    (he : e ∈ (interfacer E F w).world.trace) : e ∈ w.trace ∨ NewEvent E F e := by
  unfold interfacer at he
  have key : ∀ (forPackage : GoString) (w1 : World),
      (∀ e, e ∈ w1.trace → e ∈ w.trace ∨ NewEvent E F e) →
      e ∈ (match parseQuery E forPackage F.optTypename w1 with
        | ((_, some err), w2) => Outcome.returned (some err) w2
        | ((none, none), w2) => Outcome.panicked w2
        | ((some parsedQuery, none), w2) =>
          match createInterface E parsedQuery F.optAll w2 with
          | ((_, some err), w3) => Outcome.returned (some err) w3
          | ((generatedInterface, none), w3) =>
            let vs := newVars parsedQuery (Interface.ofNilable generatedInterface) F.optAs
            match Execute tmpl vs with
            | .error err => Outcome.returned (some (.wrap err)) w3
            | .ok _ =>
              match generateCode E vs w3 with
              | ((_, some err), w4) => Outcome.returned (some (.wrap err)) w4
              | ((formatted, none), w4) =>
                match writeOutput E F.optOutput (formatted.getD []) w4 with
                | (err, w5) => Outcome.returned err w5).world.trace →
      e ∈ w.trace ∨ NewEvent E F e := by
    intro forPackage w1 hw1 he
    have hlog : ∀ (w0 : World) (ev : Event), NewEvent E F ev →
        (∀ e, e ∈ w0.trace → e ∈ w.trace ∨ NewEvent E F e) →
        ∀ e, e ∈ (w0.log ev).trace → e ∈ w.trace ∨ NewEvent E F e := by
      intro w0 ev hev h0 e he
      simp only [World.log, List.mem_append, List.mem_singleton] at he
      rcases he with he | he
      · exact h0 e he
      · subst he; right; exact hev
    rcases parseQuery_cases E forPackage F.optTypename w1 with ⟨err, _, h⟩ | ⟨q, hq, h⟩
    · rw [h] at he
      exact hlog w1 (.ParseQuery _) trivial hw1 e he
    · rw [h] at he
      simp only at he
      have hw2 := hlog w1 (.ParseQuery (forPackage ++ ".".toList ++ F.optTypename)) trivial hw1
      rcases createInterface_cases E q F.optAll (w1.log (.ParseQuery (forPackage ++ ".".toList ++ F.optTypename)))
        with ⟨err, _, h⟩ | ⟨itf, hn, h⟩
      · rw [h] at he
        exact hlog _ (.NewWithOptions _) trivial hw2 e he
      · rw [h] at he
        simp only [Execute_tmpl] at he
        have hw3 := hlog _ (.NewWithOptions { Query := q, Unexported := F.optAll }) trivial hw2
        rcases generateCode_cases E (newVars q (Interface.ofNilable (some itf)) F.optAs)
            ((w1.log (.ParseQuery (forPackage ++ ".".toList ++ F.optTypename))).log
              (.NewWithOptions { Query := q, Unexported := F.optAll }))
          with ⟨err, _, h⟩ | ⟨buf, err, hx, _, h⟩ | ⟨buf, out, hx, hs, h⟩
        · rw [h] at he
          exact hw3 e he
        · rw [h] at he
          exact hlog _ (.Source buf) ⟨forPackage, q, itf, hq, hn, hx⟩ hw3 e he
        · rw [h] at he
          simp only [Outcome.world, Option.getD] at he
          have hw4 := hlog _ (.Source buf) ⟨forPackage, q, itf, hq, hn, hx⟩ hw3
          rcases writeOutput_events E F.optOutput out _ e he with h1 | h1 | ⟨f, h1⟩ | ⟨f, h1⟩
          · exact hw4 e h1
          · subst h1; right; rfl
          · subst h1; right; exact ⟨buf, ⟨forPackage, q, itf, hq, hn, hx⟩, hs⟩
          · subst h1; right; trivial
  rcases packageInfo_cases E F.optRpath w with h | ⟨err, cfg, pats, h⟩ | ⟨id, cfg, pats, h⟩
    | ⟨cfg, pats, msg, h⟩
  · rw [h] at he
    exact key _ w (fun e he => Or.inl he) he
  · rw [h] at he
    simp only [Outcome.world, World.log, List.mem_append, List.mem_singleton] at he
    rcases he with he | he
    · left; exact he
    · subst he; right; trivial
  · rw [h] at he
    refine key _ _ ?_ he
    intro e he
    simp only [World.log, List.mem_append, List.mem_singleton] at he
    rcases he with he | he
    · left; exact he
    · subst he; right; trivial
  · rw [h] at he
    simp only [Outcome.world, World.log, List.mem_append, List.mem_singleton] at he
    rcases he with (he | he) | he
    · left; exact he
    · subst he; right; trivial
    · subst he; right; trivial



/-! ## Lines -/

theorem splitLines_ne_nil (s : GoString) : splitLines s ≠ [] := by
  induction s with
  | nil => simp [splitLines]
  | cons c cs ih =>
    unfold splitLines
    split_ifs
    · simp
    · split <;> simp

theorem splitLines_line (l rest : GoString) (h : '\n' ∉ l) :
    splitLines (l ++ '\n' :: rest) = l :: splitLines rest := by
  induction l with
  | nil => simp [splitLines]
  | cons c cs ih =>
    have h1 : c ≠ '\n' := fun hc => h (hc ▸ List.mem_cons_self _ _)
    have h2 : '\n' ∉ cs := fun hc => h (List.mem_cons_of_mem _ hc)
    rw [List.cons_append, splitLines, if_neg h1, ih h2]

theorem splitLines_lines (ls : List GoString) (rest : GoString) (h : ∀ l ∈ ls, '\n' ∉ l) :
    splitLines ((ls.map fun l => l ++ "\n".toList).flatten ++ rest) = ls ++ splitLines rest := by
  induction ls with
  | nil => rfl
  | cons l ls ih =>
    have h1 : '\n' ∉ l := h l (List.mem_cons_self _ _)
    have h2 : ∀ m ∈ ls, '\n' ∉ m := fun m hm => h m (List.mem_cons_of_mem _ hm)
    have e : ((l :: ls).map fun l => l ++ "\n".toList).flatten ++ rest
        = l ++ '\n' :: ((ls.map fun l => l ++ "\n".toList).flatten ++ rest) := by
      simp [List.flatten, List.append_assoc]
    rw [e, splitLines_line _ _ h1, ih h2]
    rfl

/-- The text of `tmpl` on `v`, line by line: the lines before the import
entries, the entries, the lines between, the methods, the closing lines. -/
theorem Execute_tmpl_lines (v : vars)
    (hP : '\n' ∉ v.PackageName) (hI : '\n' ∉ v.InterfaceName) (hT : '\n' ∉ v.Type_)
    (hD : ∀ d ∈ v.Deps, '\n' ∉ d) (hM : ∀ m ∈ v.Interface.Funcs, '\n' ∉ m) :
    ∃ text, Execute tmpl v = .ok text ∧ splitLines text
      = ["// Code generated by interfacer; DO NOT EDIT".toList, [],
          "package ".toList ++ v.PackageName, [], "import (".toList]
        ++ v.Deps.map (fun d => "\t\"".toList ++ d ++ "\"".toList)
        ++ [")".toList, [],
            "// ".toList ++ v.InterfaceName ++ " is an interface generated for ".toList
              ++ v.Type_ ++ ".".toList,
            "type ".toList ++ v.InterfaceName ++ " interface \x7b".toList]
        ++ v.Interface.Funcs.map (fun m => "\t".toList ++ m)
        ++ ["\x7d".toList, []] := by
  refine ⟨_, Execute_tmpl v, ?_⟩
  have e : "// Code generated by interfacer; DO NOT EDIT\n\npackage ".toList ++ (v.PackageName
        ++ ("\n\nimport (\n".toList ++ ((v.Deps.map importLine).flatten
        ++ (")\n\n// ".toList ++ (v.InterfaceName ++ (" is an interface generated for ".toList
        ++ (v.Type_ ++ (".\ntype ".toList ++ (v.InterfaceName ++ (" interface \x7b\n".toList
        ++ ((v.Interface.Funcs.map methodLine).flatten ++ "\x7d\n".toList)))))))))))
      = ((["// Code generated by interfacer; DO NOT EDIT".toList, [],
          "package ".toList ++ v.PackageName, [], "import (".toList]
        ++ v.Deps.map (fun d => "\t\"".toList ++ d ++ "\"".toList)
        ++ [")".toList, [],
            "// ".toList ++ v.InterfaceName ++ " is an interface generated for ".toList
              ++ v.Type_ ++ ".".toList,
            "type ".toList ++ v.InterfaceName ++ " interface \x7b".toList]
        ++ v.Interface.Funcs.map (fun m => "\t".toList ++ m)
        ++ ["\x7d".toList]).map fun l => l ++ "\n".toList).flatten ++ [] := by
    have hi : importLine = fun d => "\t\"".toList ++ d ++ "\"\n".toList := rfl
    have hm : methodLine = fun m => "\t".toList ++ m ++ "\n".toList := rfl
    rw [hi, hm]
    simp [List.flatten, List.append_assoc, Function.comp_def]
  rw [e, splitLines_lines]
  · simp [splitLines]
  · intro l hl
    simp only [List.mem_append, List.mem_cons, List.mem_map, List.mem_singleton,
      List.not_mem_nil, or_false] at hl
    rcases hl with ((((h | h | h | h | h) | ⟨a, ha, h⟩) | h | h | h | h) | ⟨a, ha, h⟩) | h
    all_goals subst h
    all_goals simp_all


/-! ## The text of the template and the output of `generateCode` -/

theorem takeWhile_stop {α : Type} (p : α → Bool) (xs : List α) (y : α) (rest : List α)
    (h : ∀ x ∈ xs, p x = true) (hy : p y = false) :
    (xs ++ y :: rest).takeWhile p = xs := by
  induction xs with
  | nil => simp [List.takeWhile, hy]
  | cons x xs ih =>
    have h1 : p x = true := h x (List.mem_cons_self _ _)
    have h2 : ∀ z ∈ xs, p z = true := fun z hz => h z (List.mem_cons_of_mem _ hz)
    rw [List.cons_append, List.takeWhile_cons, h1, ih h2]
    rfl

theorem dropWhile_stop {α : Type} (p : α → Bool) (xs : List α) (y : α) (rest : List α)
    (h : ∀ x ∈ xs, p x = true) (hy : p y = false) :
    (xs ++ y :: rest).dropWhile p = y :: rest := by
  induction xs with
  | nil => simp [List.dropWhile, hy]
  | cons x xs ih =>
    have h1 : p x = true := h x (List.mem_cons_self _ _)
    have h2 : ∀ z ∈ xs, p z = true := fun z hz => h z (List.mem_cons_of_mem _ hz)
    rw [List.cons_append, List.dropWhile_cons, h1, if_pos rfl, ih h2]

theorem splitLines_single (l : GoString) (h : '\n' ∉ l) : splitLines l = [l] := by
  induction l with
  | nil => rfl
  | cons c cs ih =>
    have h1 : c ≠ '\n' := fun hc => h (hc ▸ List.mem_cons_self _ _)
    have h2 : '\n' ∉ cs := fun hc => h (List.mem_cons_of_mem _ hc)
    rw [splitLines, if_neg h1, ih h2]

theorem splitLines_joinLines (ls : List GoString) (hne : ls ≠ [])
    (h : ∀ l ∈ ls, '\n' ∉ l) : splitLines (joinLines ls) = ls := by
  induction ls with
  | nil => exact absurd rfl hne
  | cons l ls ih =>
    have h1 : '\n' ∉ l := h l (List.mem_cons_self _ _)
    cases ls with
    | nil => exact splitLines_single l h1
    | cons m ms =>
      have h2 : ∀ x ∈ m :: ms, '\n' ∉ x := fun x hx => h x (List.mem_cons_of_mem _ hx)
      show splitLines (l ++ '\n' :: joinLines (m :: ms)) = l :: m :: ms
      rw [splitLines_line _ _ h1, ih (List.cons_ne_nil _ _) h2]

theorem mem_insertLine (x l : GoString) (ms : List GoString) (h : x ∈ insertLine l ms) :
    x = l ∨ x ∈ ms := by
  induction ms with
  | nil =>
    simp only [insertLine, List.mem_singleton] at h
    exact Or.inl h
  | cons m ms ih =>
    unfold insertLine at h
    split_ifs at h
    · rcases List.mem_cons.mp h with h1 | h1
      · right; rw [h1]; exact List.mem_cons_self _ _
      · rcases ih h1 with h2 | h2
        · exact Or.inl h2
        · exact Or.inr (List.mem_cons_of_mem _ h2)
    · rcases List.mem_cons.mp h with h1 | h1
      · exact Or.inl h1
      · exact Or.inr h1

theorem mem_sortLines (x : GoString) (ls : List GoString) (h : x ∈ sortLines ls) : x ∈ ls := by
  induction ls with
  | nil => exact h
  | cons l ls ih =>
    rcases mem_insertLine x l (sortLines ls) h with h1 | h1
    · rw [h1]; exact List.mem_cons_self _ _
    · exact List.mem_cons_of_mem _ (ih h1)

theorem importPath_entry (d : GoString) :
    importPath ("\t\"".toList ++ d ++ "\"".toList) = d := by
  show ((d ++ ['"']).dropLast) = d
  exact List.dropLast_concat

theorem sortLines_increasing (ls : List GoString)
    (h : increasing (ls.map importPath) = true) : sortLines ls = ls := by
  induction ls with
  | nil => rfl
  | cons l ls ih =>
    cases ls with
    | nil => rfl
    | cons m ms =>
      simp only [List.map, increasing, Bool.and_eq_true, Bool.not_eq_true'] at h
      have h2 : sortLines (m :: ms) = m :: ms := ih h.2
      show insertLine l (sortLines (m :: ms)) = l :: m :: ms
      rw [h2, insertLine, h.1]
      simp


theorem importBlock_layout (text : GoString) (A D post : List GoString)
    (hA : ∀ l ∈ A, (l != "import (".toList) = true)
    (hD : ∀ l ∈ D, (l != ")".toList) = true)
    (h : splitLines text = A ++ "import (".toList :: (D ++ ")".toList :: post)) :
    importBlock text = D := by
  unfold importBlock
  rw [h, dropWhile_stop (fun l => l != "import (".toList) A _ _ hA (by decide)]
  exact takeWhile_stop (fun l => l != ")".toList) D _ _ hD (by decide)

theorem methodBlock_layout (text T : GoString) (B Ms post : List GoString)
    (hB : ∀ l ∈ B, (!("type ".toList.isPrefixOf l)) = true)
    (hT : (!("type ".toList.isPrefixOf T)) = false)
    (hM : ∀ m ∈ Ms, (m != "\x7d".toList) = true)
    (h : splitLines text = B ++ T :: (Ms ++ "\x7d".toList :: post)) :
    methodBlock text = Ms := by
  unfold methodBlock
  rw [h, dropWhile_stop (fun l => !("type ".toList.isPrefixOf l)) B _ _ hB hT]
  exact takeWhile_stop (fun l => l != "\x7d".toList) Ms _ _ hM (by decide)

theorem sortImports_layout (text : GoString) (A D post : List GoString)
    (hA : ∀ l ∈ A, (l != "import (".toList) = true)
    (hD : ∀ l ∈ D, (l != ")".toList) = true)
    (h : splitLines text = A ++ "import (".toList :: (D ++ ")".toList :: post)) :
    sortImports text
      = joinLines (A ++ "import (".toList :: (sortLines D ++ ")".toList :: post)) := by
  unfold sortImports
  simp only [h]
  rw [dropWhile_stop (fun l => l != "import (".toList) A _ _ hA (by decide)]
  simp only
  rw [takeWhile_stop (fun l => l != "import (".toList) A _ _ hA (by decide),
    takeWhile_stop (fun l => l != ")".toList) D _ _ hD (by decide),
    dropWhile_stop (fun l => l != ")".toList) D _ _ hD (by decide)]

/-- The blocks of a text with the lines of `tmpl`, and what the canonicalizer
makes of it, for entries and method lines that start with a tab. -/
theorem blocks_of_lines (text P N T : GoString) (D Ms : List GoString)
    (hD : ∀ d ∈ D, ∃ x, d = '\t' :: x) (hM : ∀ m ∈ Ms, ∃ x, m = '\t' :: x)
    (h : splitLines text
      = ["// Code generated by interfacer; DO NOT EDIT".toList, [], "package ".toList ++ P, [],
          "import (".toList]
        ++ D
        ++ [")".toList, [],
            "// ".toList ++ N ++ " is an interface generated for ".toList ++ T ++ ".".toList,
            "type ".toList ++ N ++ " interface \x7b".toList]
        ++ Ms ++ ["\x7d".toList, []]) :
    importBlock text = D ∧ methodBlock text = Ms
      ∧ sortImports text
          = joinLines
              (["// Code generated by interfacer; DO NOT EDIT".toList, [],
                  "package ".toList ++ P, [], "import (".toList]
                ++ sortLines D
                ++ [")".toList, [],
                    "// ".toList ++ N ++ " is an interface generated for ".toList ++ T
                      ++ ".".toList,
                    "type ".toList ++ N ++ " interface \x7b".toList]
                ++ Ms ++ ["\x7d".toList, []]) := by
  have hA : ∀ l ∈ ["// Code generated by interfacer; DO NOT EDIT".toList, [],
      "package ".toList ++ P, []], (l != "import (".toList) = true := by
    intro l hl
    simp only [List.mem_cons, List.mem_singleton, List.not_mem_nil, or_false] at hl
    rcases hl with rfl | rfl | rfl | rfl
    · decide
    · decide
    · simp
    · decide
  have hD1 : ∀ l ∈ D, (l != ")".toList) = true := by
    intro l hl
    obtain ⟨x, rfl⟩ := hD l hl
    simp
  have hM1 : ∀ m ∈ Ms, (m != "\x7d".toList) = true := by
    intro m hm
    obtain ⟨x, rfl⟩ := hM m hm
    simp
  have hB : ∀ l ∈ ["// Code generated by interfacer; DO NOT EDIT".toList, [],
      "package ".toList ++ P, [], "import (".toList] ++ D
        ++ [")".toList, [],
          "// ".toList ++ N ++ " is an interface generated for ".toList ++ T ++ ".".toList],
      (!("type ".toList.isPrefixOf l)) = true := by
    intro l hl
    simp only [List.mem_append, List.mem_cons, List.mem_singleton, List.not_mem_nil,
      or_false] at hl
    rcases hl with ((rfl | rfl | rfl | rfl | rfl) | hl) | rfl | rfl | rfl
    · decide
    · decide
    · simp [List.isPrefixOf]
    · decide
    · decide
    · obtain ⟨x, rfl⟩ := hD l hl
      simp [List.isPrefixOf]
    · decide
    · decide
    · simp [List.isPrefixOf]
  have hT : (!("type ".toList.isPrefixOf ("type ".toList ++ N ++ " interface \x7b".toList)))
      = false := by
    simp [List.isPrefixOf]
  have h1 : splitLines text
      = ["// Code generated by interfacer; DO NOT EDIT".toList, [], "package ".toList ++ P, []]
        ++ "import (".toList
          :: (D ++ ")".toList
            :: ([[],
                "// ".toList ++ N ++ " is an interface generated for ".toList ++ T
                  ++ ".".toList,
                "type ".toList ++ N ++ " interface \x7b".toList]
              ++ Ms ++ ["\x7d".toList, []])) := by
    rw [h]
    simp only [List.append_assoc, List.cons_append, List.nil_append]
  have h2 : splitLines text
      = (["// Code generated by interfacer; DO NOT EDIT".toList, [], "package ".toList ++ P, [],
          "import (".toList] ++ D
        ++ [")".toList, [],
          "// ".toList ++ N ++ " is an interface generated for ".toList ++ T ++ ".".toList])
        ++ ("type ".toList ++ N ++ " interface \x7b".toList)
          :: (Ms ++ "\x7d".toList :: [[]]) := by
    rw [h]
    simp only [List.append_assoc, List.cons_append, List.nil_append]
  refine ⟨importBlock_layout text _ D _ hA hD1 h1, methodBlock_layout text _ _ Ms _ hB hT hM1 h2,
    ?_⟩
  rw [sortImports_layout text _ D _ hA hD1 h1]
  simp only [List.append_assoc, List.cons_append, List.nil_append]


/-- The closed form of the text of `tmpl`, written with left-nested appends. -/
theorem Execute_tmpl_text (v : vars) :
    Execute tmpl v = .ok
      ("// Code generated by interfacer; DO NOT EDIT\n\npackage ".toList ++ v.PackageName
        ++ "\n\nimport (\n".toList ++ (v.Deps.map importLine).flatten
        ++ ")\n\n// ".toList ++ v.InterfaceName ++ " is an interface generated for ".toList
        ++ v.Type_ ++ ".\ntype ".toList ++ v.InterfaceName ++ " interface \x7b\n".toList
        ++ (v.Interface.Funcs.map methodLine).flatten ++ "\x7d\n".toList) := by
  rw [Execute_tmpl]
  simp only [List.append_assoc]

theorem generateCode_ok_iff (E : Env) (v : vars) (w : World) (text out : GoString)
    (h : Execute tmpl v = .ok text) :
    (generateCode E v w).1 = (some out, none) ↔ E.Source text = .ok out := by
  unfold generateCode
  rw [h]
  simp only
  cases hs : E.Source text with
  | error err => simp
  | ok o => simp

theorem newVars_svc (q : Query) (itf : Interface) :
    newVars q itf "svc.RepoIface".toList
      = { PackageName := "svc".toList, InterfaceName := "RepoIface".toList,
          Type_ := "\"".toList ++ (q.Package ++ ".".toList ++ q.TypeName) ++ "\"".toList,
          Deps := itf.Deps, Interface := itf } := by
  have h : IndexRune "svc.RepoIface".toList '.' = 3 := by decide
  unfold newVars
  simp only [h]
  rfl


theorem map_importPath (ds : List GoString) :
    (ds.map (fun d => "\t\"".toList ++ d ++ "\"".toList)).map importPath = ds := by
  induction ds with
  | nil => rfl
  | cons d ds ih => simp only [List.map, importPath_entry, ih]

/-- The text of `tmpl` on `v` and what the canonicalizer `sortImports` makes
of it, block by block. -/
theorem rendered_blocks (v : vars)
    (hP : '\n' ∉ v.PackageName) (hI : '\n' ∉ v.InterfaceName) (hT : '\n' ∉ v.Type_)
    (hD : ∀ d ∈ v.Deps, '\n' ∉ d) (hM : ∀ m ∈ v.Interface.Funcs, '\n' ∉ m) :
    ∃ text, Execute tmpl v = .ok text
      ∧ importBlock text = v.Deps.map (fun d => "\t\"".toList ++ d ++ "\"".toList)
      ∧ methodBlock text = v.Interface.Funcs.map (fun m => "\t".toList ++ m)
      ∧ methodBlock (sortImports text) = v.Interface.Funcs.map (fun m => "\t".toList ++ m)
      ∧ importBlock (sortImports text)
          = sortLines (v.Deps.map (fun d => "\t\"".toList ++ d ++ "\"".toList))
      ∧ (increasing v.Deps = true →
          importBlock (sortImports text)
            = v.Deps.map (fun d => "\t\"".toList ++ d ++ "\"".toList)) := by
  obtain ⟨text, h1, h2⟩ := Execute_tmpl_lines v hP hI hT hD hM
  have hD1 : ∀ d ∈ v.Deps.map (fun d => "\t\"".toList ++ d ++ "\"".toList),
      ∃ x, d = '\t' :: x := by
    intro d hd
    obtain ⟨x, _, rfl⟩ := List.mem_map.mp hd
    exact ⟨_, rfl⟩
  have hM1 : ∀ m ∈ v.Interface.Funcs.map (fun m => "\t".toList ++ m), ∃ x, m = '\t' :: x := by
    intro m hm
    obtain ⟨x, _, rfl⟩ := List.mem_map.mp hm
    exact ⟨_, rfl⟩
  have hD2 : ∀ d ∈ sortLines (v.Deps.map (fun d => "\t\"".toList ++ d ++ "\"".toList)),
      ∃ x, d = '\t' :: x := fun d hd => hD1 d (mem_sortLines d _ hd)
  obtain ⟨b1, b2, b3⟩ := blocks_of_lines text v.PackageName v.InterfaceName v.Type_ _ _ hD1 hM1 h2
  have hout : splitLines (sortImports text)
      = ["// Code generated by interfacer; DO NOT EDIT".toList, [],
          "package ".toList ++ v.PackageName, [], "import (".toList]
        ++ sortLines (v.Deps.map (fun d => "\t\"".toList ++ d ++ "\"".toList))
        ++ [")".toList, [],
            "// ".toList ++ v.InterfaceName ++ " is an interface generated for ".toList
              ++ v.Type_ ++ ".".toList,
            "type ".toList ++ v.InterfaceName ++ " interface \x7b".toList]
        ++ v.Interface.Funcs.map (fun m => "\t".toList ++ m) ++ ["\x7d".toList, []] := by
    rw [b3]
    apply splitLines_joinLines
    · simp
    · intro l hl
      simp only [List.mem_append, List.mem_cons, List.mem_map, List.mem_singleton,
        List.not_mem_nil, or_false] at hl
      rcases hl with ((((h | h | h | h | h) | h) | h | h | h | h) | ⟨a, ha, h⟩) | h | h
      · subst h; decide
      · subst h; simp
      · subst h; simp [hP]
      · subst h; simp
      · subst h; decide
      · obtain ⟨d, hd, rfl⟩ := List.mem_map.mp (mem_sortLines l _ h)
        have := hD d hd
        simp [this]
      · subst h; decide
      · subst h; simp
      · subst h; simp [hI, hT]
      · subst h; simp [hI]
      · subst h
        have := hM a ha
        simp [this]
      · subst h; decide
      · subst h; simp
  obtain ⟨c1, c2, _⟩ :=
    blocks_of_lines (sortImports text) v.PackageName v.InterfaceName v.Type_ _ _ hD2 hM1 hout
  refine ⟨text, h1, b1, b2, c2, c1, ?_⟩
  intro hs
  rw [c1]
  apply sortLines_increasing
  rw [map_importPath]
  exact hs


theorem newVars_no_newline (q : Query) (itf : Interface) (s : GoString) (hs : '\n' ∉ s)
    (hq1 : '\n' ∉ q.Package) (hq2 : '\n' ∉ q.TypeName) :
    '\n' ∉ (newVars q itf s).PackageName ∧ '\n' ∉ (newVars q itf s).InterfaceName
      ∧ '\n' ∉ (newVars q itf s).Type_ := by
  refine ⟨?_, ?_, ?_⟩
  · by_cases h : '.' ∈ s
    · rw [(newVars_dot q itf s h).1]
      exact fun hc => hs (List.mem_of_mem_take hc)
    · rw [(newVars_no_dot q itf s h).1]
      exact List.not_mem_nil _
  · by_cases h : '.' ∈ s
    · rw [(newVars_dot q itf s h).2]
      exact fun hc => hs (List.mem_of_mem_drop hc)
    · rw [(newVars_no_dot q itf s h).2]
      exact hs
  · rw [(newVars_fields q itf s).1]
    simp [hq1, hq2]

/-- C2 (as amended): the text of `tmpl` has, in the import block, one
tab-indented quoted line per entry of `Deps` and, in the interface body, one
tab-indented line per method, verbatim and in the given order, with nothing
added, dropped, deduplicated or re-sorted, and the render model of
`interfacer` has the `Deps` and the methods of the extractor's result.
`generateCode` returns what the canonicalizer makes of that text: where the
canonicalizer accepts the text and, as `format.Source` does to a text in
canonical form, only sorts the import block, the output keeps the method
lines in their order, has the import entries sorted by import path, and so
keeps the order of `Deps` whenever `Deps` is in increasing order, as the
list of the extractor is; what `interfacer` writes then has the extractor's
methods and dependencies in the extractor's order.  For the one method
`Get(id string) (Item, error)`, no dependency and `-as svc.RepoIface` the
text has the package clause `svc`, an import block without entries and the
interface `RepoIface` with that one method line. -/
theorem tmpl_renders_entries_in_order (E : Env) (v : vars) (w : World) :
    (∃ text, Execute tmpl v = .ok text
      ∧ text = "// Code generated by interfacer; DO NOT EDIT\n\npackage ".toList ++ v.PackageName
          ++ "\n\nimport (\n".toList ++ (v.Deps.map importLine).flatten
          ++ ")\n\n// ".toList ++ v.InterfaceName ++ " is an interface generated for ".toList
          ++ v.Type_ ++ ".\ntype ".toList ++ v.InterfaceName ++ " interface \x7b\n".toList
          ++ (v.Interface.Funcs.map methodLine).flatten ++ "\x7d\n".toList
      ∧ (∀ out, (generateCode E v w).1 = (some out, none) ↔ E.Source text = .ok out)
      ∧ ('\n' ∉ v.PackageName → '\n' ∉ v.InterfaceName → '\n' ∉ v.Type_ →
          (∀ d ∈ v.Deps, '\n' ∉ d) → (∀ m ∈ v.Interface.Funcs, '\n' ∉ m) →
          splitLines text
              = ["// Code generated by interfacer; DO NOT EDIT".toList, [],
                  "package ".toList ++ v.PackageName, [], "import (".toList]
                ++ v.Deps.map (fun d => "\t\"".toList ++ d ++ "\"".toList)
                ++ [")".toList, [],
                    "// ".toList ++ v.InterfaceName ++ " is an interface generated for ".toList
                      ++ v.Type_ ++ ".".toList,
                    "type ".toList ++ v.InterfaceName ++ " interface \x7b".toList]
                ++ v.Interface.Funcs.map (fun m => "\t".toList ++ m)
                ++ ["\x7d".toList, []]
            ∧ importBlock text = v.Deps.map (fun d => "\t\"".toList ++ d ++ "\"".toList)
            ∧ methodBlock text = v.Interface.Funcs.map (fun m => "\t".toList ++ m)
            ∧ (E.Source text = .ok (sortImports text) →
                (generateCode E v w).1 = (some (sortImports text), none)
                  ∧ methodBlock (sortImports text)
                      = v.Interface.Funcs.map (fun m => "\t".toList ++ m)
                  ∧ importBlock (sortImports text)
                      = sortLines (v.Deps.map (fun d => "\t\"".toList ++ d ++ "\"".toList))
                  ∧ (increasing v.Deps = true →
                      importBlock (sortImports text)
                        = v.Deps.map (fun d => "\t\"".toList ++ d ++ "\"".toList)))))
      ∧ (∀ (q : Query) (itf : Interface) (s : GoString),
          (newVars q itf s).Deps = itf.Deps ∧ (newVars q itf s).Interface = itf)
      ∧ ((∀ src out, E.Source src = .ok out → out = sortImports src) →
          (∀ s q, E.ParseQuery s = .ok q → '\n' ∉ q.Package ∧ '\n' ∉ q.TypeName) →
          (∀ o itf, E.NewWithOptions o = .ok itf →
            increasing itf.Deps = true ∧ (∀ d ∈ itf.Deps, '\n' ∉ d)
              ∧ ∀ m ∈ itf.Funcs, '\n' ∉ m) →
          ∀ (F : Flags) (w0 : World) (f : File) (b : GoString), '\n' ∉ F.optAs →
            Event.Write f b ∈ (interfacer E F w0).world.trace →
              Event.Write f b ∈ w0.trace
                ∨ ∃ fp q itf, E.ParseQuery (fp ++ ".".toList ++ F.optTypename) = .ok q
                    ∧ E.NewWithOptions { Query := q, Unexported := F.optAll } = .ok itf
                    ∧ methodBlock b = itf.Funcs.map (fun m => "\t".toList ++ m)
                    ∧ importBlock b = itf.Deps.map (fun d => "\t\"".toList ++ d ++ "\"".toList))
      ∧ ∀ q : Query,
          Execute tmpl
              (newVars q { Funcs := ["Get(id string) (Item, error)".toList], deps := [] }
                "svc.RepoIface".toList)
            = .ok ("// Code generated by interfacer; DO NOT EDIT\n\npackage svc\n\nimport (\n)\n\n// RepoIface is an interface generated for \"".toList
                ++ q.Package ++ ".".toList ++ q.TypeName
                ++ "\".\ntype RepoIface interface \x7b\n\tGet(id string) (Item, error)\n\x7d\n".toList) := by
  refine ⟨⟨_, Execute_tmpl_text v, rfl, ?_, ?_⟩, ?_, ?_, ?_⟩
  · intro out
    exact generateCode_ok_iff E v w _ out (Execute_tmpl_text v)
  · intro hP hI hT hD hM
    obtain ⟨text, h1, h2⟩ := Execute_tmpl_lines v hP hI hT hD hM
    obtain ⟨text2, g1, g2, g3, g4, g5, g6⟩ := rendered_blocks v hP hI hT hD hM
    have h3 := Execute_tmpl_text v
    have e1 := h3
    rw [h1] at e1
    have e2 := h3
    rw [g1] at e2
    have k1 := Except.ok.inj e1
    have k2 := Except.ok.inj e2
    rw [← k1]
    refine ⟨h2, ?_⟩
    rw [k1, ← k2]
    refine ⟨g2, g3, ?_⟩
    intro hs
    refine ⟨?_, g4, g5, g6⟩
    exact (generateCode_ok_iff E v w _ _ g1).mpr hs
  · intro q itf s
    exact (newVars_fields q itf s).2
  · intro hfmt hq hx F w0 f b has hmem
    rcases interfacer_events E F w0 _ hmem with h | h
    · exact Or.inl h
    · right
      obtain ⟨src, ⟨fp, q, itf, hpq, hnw, hex⟩, hsrc⟩ := h
      obtain ⟨hq1, hq2⟩ := hq _ q hpq
      obtain ⟨hinc, hd, hm⟩ := hx _ itf hnw
      obtain ⟨n1, n2, n3⟩ := newVars_no_newline q itf F.optAs has hq1 hq2
      obtain ⟨f1, f2⟩ := (newVars_fields q itf F.optAs).2
      have hd1 : ∀ d ∈ (newVars q itf F.optAs).Deps, '\n' ∉ d := by
        rw [f1]; exact hd
      have hm1 : ∀ m ∈ (newVars q itf F.optAs).Interface.Funcs, '\n' ∉ m := by
        rw [f2]; exact hm
      have hinc1 : increasing (newVars q itf F.optAs).Deps = true := by
        rw [f1]; exact hinc
      obtain ⟨text, g1, _, _, g4, _, g6⟩ :=
        rendered_blocks (newVars q itf F.optAs) n1 n2 n3 hd1 hm1
      rw [hex] at g1
      have k := Except.ok.inj g1
      have hb : b = sortImports text := by
        rw [← k]; exact hfmt _ _ hsrc
      refine ⟨fp, q, itf, hpq, hnw, ?_, ?_⟩
      · rw [hb, g4, f2]
      · rw [hb, g6 hinc1, f1]
  · intro q
    rw [newVars_svc, Execute_tmpl]
    simp [Interface.Deps, importLine, methodLine, List.flatten, List.append_assoc]


/-- C2, witness: for the sample render model with the dependencies `context`,
`io` and a canonicalizer that sorts the import block the output of
`generateCode` keeps the two methods and the two entries in their order; and
what the sample run writes to standard output has the methods and the
dependencies of the extractor in the extractor's order. -/
theorem tmpl_renders_entries_in_order_witness :
    (methodBlock (sortImports
          ("// Code generated by interfacer; DO NOT EDIT\n\npackage ".toList
            ++ sortedVars.PackageName
            ++ "\n\nimport (\n".toList ++ (sortedVars.Deps.map importLine).flatten
            ++ ")\n\n// ".toList ++ sortedVars.InterfaceName
            ++ " is an interface generated for ".toList
            ++ sortedVars.Type_ ++ ".\ntype ".toList ++ sortedVars.InterfaceName
            ++ " interface \x7b\n".toList
            ++ (sortedVars.Interface.Funcs.map methodLine).flatten ++ "\x7d\n".toList))
        = ["\tPut(ctx context.Context, r io.Reader) error".toList,
            "\tGet(ctx context.Context, w io.Writer) error".toList]
      ∧ importBlock (sortImports
          ("// Code generated by interfacer; DO NOT EDIT\n\npackage ".toList
            ++ sortedVars.PackageName
            ++ "\n\nimport (\n".toList ++ (sortedVars.Deps.map importLine).flatten
            ++ ")\n\n// ".toList ++ sortedVars.InterfaceName
            ++ " is an interface generated for ".toList
            ++ sortedVars.Type_ ++ ".\ntype ".toList ++ sortedVars.InterfaceName
            ++ " interface \x7b\n".toList
            ++ (sortedVars.Interface.Funcs.map methodLine).flatten ++ "\x7d\n".toList))
        = ["\t\"context\"".toList, "\t\"io\"".toList])
      ∧ ∃ fp q itf,
          (sampleEnv false).ParseQuery (fp ++ ".".toList ++ "Repo".toList) = .ok q
            ∧ (sampleEnv false).NewWithOptions { Query := q, Unexported := false } = .ok itf
            ∧ methodBlock "// Code generated by interfacer; DO NOT EDIT\n\npackage svc\n\nimport (\n\t\"context\"\n\t\"io\"\n)\n\n// RepoIface is an interface generated for \"example.com/svc.Repo\".\ntype RepoIface interface \x7b\n\tPut(ctx context.Context, r io.Reader) error\n\tGet(ctx context.Context, w io.Writer) error\n\x7d\n".toList
                = itf.Funcs.map (fun m => "\t".toList ++ m)
            ∧ importBlock "// Code generated by interfacer; DO NOT EDIT\n\npackage svc\n\nimport (\n\t\"context\"\n\t\"io\"\n)\n\n// RepoIface is an interface generated for \"example.com/svc.Repo\".\ntype RepoIface interface \x7b\n\tPut(ctx context.Context, r io.Reader) error\n\tGet(ctx context.Context, w io.Writer) error\n\x7d\n".toList
                = itf.Deps.map (fun d => "\t\"".toList ++ d ++ "\"".toList) := by
  obtain ⟨⟨text, _, h2, _, h4⟩, _, h5, _⟩ :=
    tmpl_renders_entries_in_order (sampleEnv false) sortedVars emptyWorld
  constructor
  · rw [← h2]
    obtain ⟨_, _, _, h6⟩ := h4 (by decide) (by decide) (by decide) (by decide) (by decide)
    obtain ⟨_, h7, _, h8⟩ := h6 rfl
    exact ⟨h7, h8 (by decide)⟩
  · have h9 := h5 (fun src out h => (Except.ok.inj h).symm)
      (fun s q h => by
        have := Except.ok.inj h
        subst this
        decide)
      (fun o itf h => by
        have := Except.ok.inj h
        subst this
        decide)
      ⟨"./svc".toList, "Repo".toList, "svc.RepoIface".toList, "-".toList, false⟩ emptyWorld
      .Stdout
      "// Code generated by interfacer; DO NOT EDIT\n\npackage svc\n\nimport (\n\t\"context\"\n\t\"io\"\n)\n\n// RepoIface is an interface generated for \"example.com/svc.Repo\".\ntype RepoIface interface \x7b\n\tPut(ctx context.Context, r io.Reader) error\n\tGet(ctx context.Context, w io.Writer) error\n\x7d\n".toList
      (by decide) (by decide!)
    exact h9.resolve_left (List.not_mem_nil _)

/-- C2, counterexample: with a canonicalizer that sorts the import block, as
`format.Source` does, the output of `generateCode` for a render model with
the dependencies `io`, `context`, which are not in increasing order, lists
`context` before `io`: the order of `Deps` is not kept for every render
model. -/
theorem generateCode_output_order_differs :
    ¬ ∀ (E : Env) (v : vars) (w : World) (out : GoString),
        (generateCode E v w).1 = (some out, none) →
          importBlock out = v.Deps.map (fun d => "\t\"".toList ++ d ++ "\"".toList) := by
  intro h
  have h1 := h (sampleEnv false) unsortedVars emptyWorld _ rfl
  revert h1
  decide

/-! ## Errors and the trace of a run -/

theorem writeOutput_trace_le (E : Env) (output formatted : GoString) (w : World) :
    w.trace.length ≤ (writeOutput E output formatted w).2.trace.length := by
  unfold writeOutput
  split_ifs with h
  · unfold OpenFile
    cases h1 : E.OpenFile output with
    | some err => simp [World.log]
    | none =>
      simp only [Write]
      cases h2 : E.Write (.named output) formatted with
      | none => simp [World.log, World.append]
      | some p => simp [World.log, World.append]
  · simp only [Write]
    cases h2 : E.Write .Stdout formatted with
    | none => simp [World.log, World.append]
    | some p => simp [World.log, World.append]

theorem log_trace_length (w : World) (e : Event) :
    (w.log e).trace.length = w.trace.length + 1 := by
  simp [World.log]

/-- A call of `interfacer` always leaves at least one library call in the
trace. -/
theorem interfacer_trace_grows (E : Env) (F : Flags) (w : World) :
    w.trace.length < (interfacer E F w).world.trace.length := by
  unfold interfacer
  have key : ∀ (forPackage : GoString) (w1 : World),
      w1.trace.length < (match parseQuery E forPackage F.optTypename w1 with
        | ((_, some err), w2) => Outcome.returned (some err) w2
        | ((none, none), w2) => Outcome.panicked w2
        | ((some parsedQuery, none), w2) =>
          match createInterface E parsedQuery F.optAll w2 with
          | ((_, some err), w3) => Outcome.returned (some err) w3
          | ((generatedInterface, none), w3) =>
            let vs := newVars parsedQuery (Interface.ofNilable generatedInterface) F.optAs
            match Execute tmpl vs with
            | .error err => Outcome.returned (some (.wrap err)) w3
            | .ok _ =>
              match generateCode E vs w3 with
              | ((_, some err), w4) => Outcome.returned (some (.wrap err)) w4
              | ((formatted, none), w4) =>
                match writeOutput E F.optOutput (formatted.getD []) w4 with
                | (err, w5) => Outcome.returned err w5).world.trace.length := by
    intro forPackage w1
    rcases parseQuery_cases E forPackage F.optTypename w1 with ⟨err, _, h⟩ | ⟨q, _, h⟩
    · rw [h]
      simp [Outcome.world, World.log]
    · rw [h]
      simp only
      rcases createInterface_cases E q F.optAll
          (w1.log (.ParseQuery (forPackage ++ ".".toList ++ F.optTypename)))
        with ⟨err, _, h⟩ | ⟨itf, _, h⟩
      · rw [h]
        simp [Outcome.world, World.log]
      · rw [h]
        simp only [Execute_tmpl]
        rcases generateCode_cases E (newVars q (Interface.ofNilable (some itf)) F.optAs)
            ((w1.log (.ParseQuery (forPackage ++ ".".toList ++ F.optTypename))).log
              (.NewWithOptions { Query := q, Unexported := F.optAll }))
          with ⟨err, _, h⟩ | ⟨buf, err, hx, _, h⟩ | ⟨buf, out, hx, hs, h⟩
        · rw [h]
          simp [Outcome.world, World.log]
        · rw [h]
          simp [Outcome.world, World.log]
        · rw [h]
          simp only [Outcome.world, Option.getD]
          have := writeOutput_trace_le E F.optOutput out
            (((w1.log (.ParseQuery (forPackage ++ ".".toList ++ F.optTypename))).log
              (.NewWithOptions { Query := q, Unexported := F.optAll })).log (.Source buf))
          simp only [log_trace_length] at this
          omega
  rcases packageInfo_cases E F.optRpath w with h | ⟨err, cfg, pats, h⟩ | ⟨id, cfg, pats, h⟩
    | ⟨cfg, pats, msg, h⟩
  · rw [h]
    exact key _ w
  · rw [h]
    simp [Outcome.world, World.log]
  · rw [h]
    have := key id (w.log (.Load cfg pats))
    simp only [log_trace_length] at this
    exact Nat.lt_trans (Nat.lt_succ_self _) this
  · rw [h]
    simp [Outcome.world, World.log]

/-- C3: `generateCode` returns an error exactly when the execution of the
template fails or the canonicalizer rejects the text; with an error it
returns no bytes; without one it returns what the canonicalizer returned for
the text.  So whatever `interfacer` writes is text the canonicalizer
accepted and returned. -/
theorem generateCode_error_iff (E : Env) (v : vars) (w : World) :
    ((generateCode E v w).1.2 ≠ none ↔
        ((∃ err, Execute tmpl v = .error err)
          ∨ ∃ buf err, Execute tmpl v = .ok buf ∧ E.Source buf = .error err))
      ∧ ((generateCode E v w).1.2 ≠ none → (generateCode E v w).1.1 = none)
      ∧ ((generateCode E v w).1.2 = none →
          ∃ buf out, Execute tmpl v = .ok buf ∧ E.Source buf = .ok out
            ∧ (generateCode E v w).1.1 = some out)
      ∧ ∀ (F : Flags) (w0 : World) (f : File) (b : GoString),
          Event.Write f b ∈ (interfacer E F w0).world.trace →
            Event.Write f b ∈ w0.trace
              ∨ ∃ q itf src, Execute tmpl (newVars q itf F.optAs) = .ok src
                  ∧ E.Source src = .ok b := by
  refine ⟨?_, ?_, ?_, ?_⟩
  · rcases generateCode_cases E v w with ⟨err, hx, h⟩ | ⟨buf, err, hx, hs, h⟩
      | ⟨buf, out, hx, hs, h⟩
    · rw [h]; simp [hx]
    · rw [h]; simp [hx, hs]
    · rw [h]; simp [hx, hs]
  · rcases generateCode_cases E v w with ⟨err, hx, h⟩ | ⟨buf, err, hx, hs, h⟩
      | ⟨buf, out, hx, hs, h⟩
    · rw [h]; simp
    · rw [h]; simp
    · rw [h]; simp
  · rcases generateCode_cases E v w with ⟨err, hx, h⟩ | ⟨buf, err, hx, hs, h⟩
      | ⟨buf, out, hx, hs, h⟩
    · rw [h]; simp
    · rw [h]; simp
    · rw [h]; simp [hx, hs]
  · intro F w0 f b hmem
    rcases interfacer_events E F w0 _ hmem with h | h
    · exact Or.inl h
    · right
      obtain ⟨src, ⟨_, q, itf, _, _, hx⟩, hs⟩ := h
      exact ⟨q, itf, src, hx, hs⟩

/-- C3, witness: the canonicalizer of `failingEnv` rejects every text. -/
theorem generateCode_error_iff_witness :
    (generateCode failingEnv unsortedVars emptyWorld).1.2 ≠ none
      ∧ (generateCode failingEnv unsortedVars emptyWorld).1.1 = none :=
  ⟨by decide,
    (generateCode_error_iff failingEnv unsortedVars emptyWorld).2.1 (by decide)⟩

/-- C4: with an empty `-for`, `-type` or `-as` (or `-out`), `run` returns at
once the usage error of the first empty flag in the order `-for`, `-type`,
`-as`, `-out`, in the world it started in: nothing was called, nothing
written, so `interfacer`, which always leaves a call in the trace, was not
invoked.  With the four values non-empty `run` is `interfacer`. -/
theorem run_usage_error (E : Env) (F : Flags) (w : World) :
    (F.optRpath = [] → run E F w = .returned (some (.wrap errEmptyForOpt)) w)
      ∧ (F.optRpath ≠ [] → F.optTypename = [] →
          run E F w = .returned (some (.wrap errEmptyTypeNameOpt)) w)
      ∧ (F.optRpath ≠ [] → F.optTypename ≠ [] → F.optAs = [] →
          run E F w = .returned (some (.wrap errEmptyAsOpt)) w)
      ∧ (F.optRpath ≠ [] → F.optTypename ≠ [] → F.optAs ≠ [] → F.optOutput = [] →
          run E F w = .returned (some (.wrap errEmptyOutputOpt)) w)
      ∧ (F.optRpath ≠ [] → F.optTypename ≠ [] → F.optAs ≠ [] → F.optOutput ≠ [] →
          run E F w = interfacer E F w)
      ∧ (interfacer E F w).world.trace ≠ w.trace
      ∧ (∀ err ∈ [errEmptyForOpt, errEmptyTypeNameOpt, errEmptyAsOpt, errEmptyOutputOpt],
          (GoError.wrap err).Is err = true ∧ (GoError.wrap err).Error = err.Error) := by
  refine ⟨?_, ?_, ?_, ?_, ?_, ?_, ?_⟩
  · intro h1; simp [run, h1]
  · intro h1 h2; simp [run, h1, h2]
  · intro h1 h2 h3; simp [run, h1, h2, h3]
  · intro h1 h2 h3 h4; simp [run, h1, h2, h3, h4]
  · intro h1 h2 h3 h4
    simp only [run, h1, h2, h3, h4, if_false]
    cases h : interfacer E F w with
    | returned val w1 => cases val <;> rfl
    | exited code w1 => rfl
    | panicked w1 => rfl
  · intro h
    have := interfacer_trace_grows E F w
    rw [h] at this
    exact Nat.lt_irrefl _ this
  · decide

/-- C4, witness: with every flag empty but `-out` the error is that of
`-for`; with the four values given `run` is `interfacer`. -/
theorem run_usage_error_witness :
    run failingEnv ⟨[], [], [], "-".toList, false⟩ emptyWorld
        = .returned (some (.wrap errEmptyForOpt)) emptyWorld
      ∧ run (sampleEnv false)
            ⟨"./svc".toList, "Repo".toList, "svc.RepoIface".toList, "-".toList, false⟩ emptyWorld
          = interfacer (sampleEnv false)
            ⟨"./svc".toList, "Repo".toList, "svc.RepoIface".toList, "-".toList, false⟩ emptyWorld :=
  ⟨(run_usage_error failingEnv ⟨[], [], [], "-".toList, false⟩ emptyWorld).1 rfl,
    (run_usage_error (sampleEnv false)
      ⟨"./svc".toList, "Repo".toList, "svc.RepoIface".toList, "-".toList, false⟩
      emptyWorld).2.2.2.2.1 (by decide) (by decide) (by decide) (by decide)⟩

/-! ## The resolution of the path -/

theorem ToSlash_unix (E : Env) (dir : GoString) (h : E.windows = false) :
    ToSlash E.Separator dir = dir := by
  simp [ToSlash, Env.Separator, h]

theorem ToSlash_no_backslash (E : Env) (dir : GoString) (h : '\\' ∉ dir) :
    ToSlash E.Separator dir = dir := by
  cases hw : E.windows with
  | false => exact ToSlash_unix E dir hw
  | true =>
    have hs : E.Separator = '\\' := by simp [Env.Separator, hw]
    rw [hs]
    have hne : ¬ ('\\' = '/') := by decide
    simp only [ToSlash, hne, if_false, ReplaceAll]
    induction dir with
    | nil => rfl
    | cons c cs ih =>
      have h1 : c ≠ '\\' := fun hc => h (hc ▸ List.mem_cons_self _ _)
      have h2 : '\\' ∉ cs := fun hc => h (List.mem_cons_of_mem _ hc)
      simp [h1, ih h2]

theorem ToSlash_cons (E : Env) (c : Char) (cs : GoString) (hc : c ≠ '\\') :
    ToSlash E.Separator (c :: cs) = c :: ToSlash E.Separator cs := by
  cases hw : E.windows with
  | false => simp [ToSlash, Env.Separator, hw]
  | true =>
    have hne : ¬ ('\\' = '/') := by decide
    simp [ToSlash, Env.Separator, hw, hne, ReplaceAll, hc]

theorem HasPrefix_ToSlash (E : Env) (dir : GoString)
    (h : HasPrefix dir "./".toList = true ∨ HasPrefix dir "../".toList = true) :
    (HasPrefix (ToSlash E.Separator dir) "./".toList
      || HasPrefix (ToSlash E.Separator dir) "../".toList) = true := by
  have d1 : ('.' : Char) ≠ '\\' := by decide
  have d2 : ('/' : Char) ≠ '\\' := by decide
  rcases h with h | h
  · obtain ⟨t, rfl⟩ := List.isPrefixOf_iff_prefix.mp h
    have : ToSlash E.Separator ("./".toList ++ t) = '.' :: '/' :: ToSlash E.Separator t := by
      show ToSlash E.Separator ('.' :: '/' :: t) = _
      rw [ToSlash_cons E _ _ d1, ToSlash_cons E _ _ d2]
    rw [this]
    simp [HasPrefix]
  · obtain ⟨t, rfl⟩ := List.isPrefixOf_iff_prefix.mp h
    have : ToSlash E.Separator ("../".toList ++ t)
        = '.' :: '.' :: '/' :: ToSlash E.Separator t := by
      show ToSlash E.Separator ('.' :: '.' :: '/' :: t) = _
      rw [ToSlash_cons E _ _ d1, ToSlash_cons E _ _ d1, ToSlash_cons E _ _ d2]
    rw [this]
    simp [HasPrefix]

/-- C5 (as amended): when the path, after `filepath.ToSlash`, starts with
neither `./` nor `../`, `packageInfo` returns the path after
`filepath.ToSlash` with a nil error and calls nothing: the world, trace
included, is as before.  Where the separator is `/`, and for every path
without a backslash, that is the path itself. -/
theorem packageInfo_canonical (E : Env) (dir : GoString) (w : World)
    (h1 : HasPrefix (ToSlash E.Separator dir) "./".toList = false)
    (h2 : HasPrefix (ToSlash E.Separator dir) "../".toList = false) :
    packageInfo E dir w = .returned (ToSlash E.Separator dir, none) w
      ∧ (E.windows = false ∨ '\\' ∉ dir → ToSlash E.Separator dir = dir) := by
  constructor
  · unfold packageInfo
    simp only [h1, h2, Bool.or_self, Bool.false_eq_true, if_false]
  · intro h
    rcases h with h | h
    · exact ToSlash_unix E dir h
    · exact ToSlash_no_backslash E dir h

/-- C5, witness: a module path given as it is. -/
theorem packageInfo_canonical_witness :
    packageInfo (sampleEnv true) "example.com/svc".toList emptyWorld
      = .returned ("example.com/svc".toList, none) emptyWorld :=
  (packageInfo_canonical (sampleEnv true) "example.com/svc".toList emptyWorld
    (by decide) (by decide)).1

/-- C5, counterexample: on Windows the path `.\svc` starts with neither `./`
nor `../`, yet `packageInfo` calls the loader, on the directory `./svc`, and
returns the identifier the loader found, not the path. -/
theorem packageInfo_backslash_path :
    HasPrefix ".\\svc".toList "./".toList = false
      ∧ HasPrefix ".\\svc".toList "../".toList = false
      ∧ packageInfo (sampleEnv true) ".\\svc".toList emptyWorld
          = .returned ("example.com/svc".toList, none)
              (emptyWorld.log (.Load { Dir := "./svc".toList } ["./".toList]))
      ∧ ¬ ∀ (E : Env) (dir : GoString) (w : World),
          HasPrefix dir "./".toList = false → HasPrefix dir "../".toList = false →
            packageInfo E dir w = .returned (dir, none) w := by
  have h3 : packageInfo (sampleEnv true) ".\\svc".toList emptyWorld
      = .returned ("example.com/svc".toList, none)
          (emptyWorld.log (.Load { Dir := "./svc".toList } ["./".toList])) := by rfl
  refine ⟨by decide, by decide, h3, ?_⟩
  intro h
  have h4 := h (sampleEnv true) ".\\svc".toList emptyWorld (by decide) (by decide)
  rw [h3] at h4
  injection h4 with h5 _
  have h6 := congrArg Prod.fst h5
  revert h6
  decide

/-- C6: when the path starts with `./` or `../`, `packageInfo` calls the
loader once, with the directory (the path after `filepath.ToSlash`, which is
the path itself where the separator is `/`) as `Dir`; a failure of the loader
is returned as the error, wrapped, with the empty identifier; one or more
packages give the `String()` of the first with a nil error; no package ends
the process through `log.Fatalf`. -/
theorem packageInfo_relative (E : Env) (dir : GoString) (w : World)
    (h : HasPrefix dir "./".toList = true ∨ HasPrefix dir "../".toList = true) :
    (∀ err, E.Load { Dir := ToSlash E.Separator dir } ["./".toList] = .error err →
        packageInfo E dir w
          = .returned ([], some (.wrap err))
              (w.log (.Load { Dir := ToSlash E.Separator dir } ["./".toList])))
      ∧ (∀ p ps, E.Load { Dir := ToSlash E.Separator dir } ["./".toList] = .ok (p :: ps) →
          packageInfo E dir w
            = .returned (p.String, none)
                (w.log (.Load { Dir := ToSlash E.Separator dir } ["./".toList])))
      ∧ (E.Load { Dir := ToSlash E.Separator dir } ["./".toList] = .ok [] →
          packageInfo E dir w
            = .exited 1
                ((w.log (.Load { Dir := ToSlash E.Separator dir } ["./".toList])).log
                  (.Fatalf ("No packages found in ".toList ++ ToSlash E.Separator dir))))
      ∧ (E.windows = false ∨ '\\' ∉ dir → ToSlash E.Separator dir = dir)
      ∧ (∀ err : GoError, (GoError.wrap err).Is err = true
          ∧ (GoError.wrap err).Error = err.Error) := by
  have hp := HasPrefix_ToSlash E dir h
  refine ⟨?_, ?_, ?_, ?_, ?_⟩
  · intro err he
    simp only [packageInfo, hp, if_true, he]
  · intro p ps he
    simp only [packageInfo, hp, if_true, he]
  · intro he
    simp only [packageInfo, hp, if_true, he]
  · intro h
    rcases h with h | h
    · exact ToSlash_unix E dir h
    · exact ToSlash_no_backslash E dir h
  · intro err
    cases err <;> simp [GoError.Is, GoError.chain, GoError.Error]

/-- C6, witness: the loader of `sampleEnv` finds one package for `./svc`. -/
theorem packageInfo_relative_witness :
    packageInfo (sampleEnv false) "./svc".toList emptyWorld
      = .returned ("example.com/svc".toList, none)
          (emptyWorld.log (.Load { Dir := "./svc".toList } ["./".toList])) :=
  (packageInfo_relative (sampleEnv false) "./svc".toList emptyWorld
    (Or.inl (by decide))).2.1 { ID := "example.com/svc".toList } [] rfl


/-! ## The output -/

theorem writeOutput_stdout (E : Env) (b : GoString) (w : World) :
    writeOutput E "-".toList b w
      = match E.Write .Stdout b with
        | none => (none, { w with stdout := w.stdout ++ b, trace := w.trace ++ [.Write .Stdout b] })
        | some (n, err) =>
          (some (.wrap err),
            { w with stdout := w.stdout ++ b.take n, trace := w.trace ++ [.Write .Stdout b] }) := by
  unfold writeOutput
  simp only [ne_eq, not_true_eq_false, if_false, Write]
  cases h : E.Write .Stdout b with
  | none => rfl
  | some p => rfl

theorem writeOutput_file (E : Env) (d b : GoString) (w : World) (hd : d ≠ "-".toList) :
    writeOutput E d b w
      = match E.OpenFile d with
        | some err => (some (.wrap err), w.log (.OpenFile d))
        | none =>
          match E.Write (.named d) b with
          | none =>
            (none, { w with files := Function.update w.files d (some b),
                            trace := w.trace ++ [.OpenFile d, .Write (.named d) b,
                              .Close (.named d)] })
          | some (n, err) =>
            (some (.wrap err),
              { w with files := Function.update w.files d (some (b.take n)),
                       trace := w.trace ++ [.OpenFile d, .Write (.named d) b,
                         .Close (.named d)] }) := by
  unfold writeOutput
  simp only [ne_eq, hd, not_false_eq_true, if_true, OpenFile]
  cases h1 : E.OpenFile d with
  | some err => rfl
  | none =>
    simp only [Write]
    cases h2 : E.Write (.named d) b with
    | none => simp [World.log, World.append]
    | some p => simp [World.log, World.append]

/-- C7: with the destination `-` the bytes go to standard output (all of them
when no error is returned) and no file is opened or changed; with another
destination the file of that name is opened, created or emptied, and written:
standard output and every other file stay as they were, without an error the
content of the file is exactly the bytes, an open failure is returned as the
error with nothing written, and a write failure is returned as the error. -/
theorem writeOutput_routes (E : Env) (d b : GoString) (w : World) :
    (d = "-".toList →
        (writeOutput E d b w).2.files = w.files
          ∧ (writeOutput E d b w).2.trace = w.trace ++ [.Write .Stdout b]
          ∧ ((writeOutput E d b w).1 = none → (writeOutput E d b w).2.stdout = w.stdout ++ b)
          ∧ (E.Write .Stdout b = none → (writeOutput E d b w).1 = none)
          ∧ (∀ n err, E.Write .Stdout b = some (n, err) →
              (writeOutput E d b w).1 = some (.wrap err)))
      ∧ (d ≠ "-".toList →
        (writeOutput E d b w).2.stdout = w.stdout
          ∧ (∀ p, p ≠ d → (writeOutput E d b w).2.files p = w.files p)
          ∧ (∀ err, E.OpenFile d = some err →
              writeOutput E d b w = (some (.wrap err), w.log (.OpenFile d)))
          ∧ (E.OpenFile d = none → ∃ n, (writeOutput E d b w).2.files d = some (b.take n))
          ∧ ((writeOutput E d b w).1 = none → (writeOutput E d b w).2.files d = some b)
          ∧ (E.OpenFile d = none → E.Write (.named d) b = none →
              (writeOutput E d b w).1 = none)
          ∧ (E.OpenFile d = none → ∀ n err, E.Write (.named d) b = some (n, err) →
              (writeOutput E d b w).1 = some (.wrap err))) := by
  constructor
  · intro hd
    subst hd
    rw [writeOutput_stdout]
    cases h : E.Write .Stdout b with
    | none => simp
    | some p =>
      obtain ⟨n, err⟩ := p
      simp
  · intro hd
    rw [writeOutput_file E d b w hd]
    cases h1 : E.OpenFile d with
    | some err => simp [World.log]
    | none =>
      cases h2 : E.Write (.named d) b with
      | none =>
        dsimp only
        refine ⟨rfl, ?_, ?_, ?_, ?_, ?_, ?_⟩
        · intro p hp; simp [Function.update, hp]
        · intro err he; cases he
        · intro _; exact ⟨b.length, by simp⟩
        · intro _; simp
        · intro _ _; trivial
        · intro _ n err he; cases he
      | some p =>
        obtain ⟨n, err⟩ := p
        dsimp only
        refine ⟨rfl, ?_, ?_, ?_, ?_, ?_, ?_⟩
        · intro q hq; simp [Function.update, hq]
        · intro err he; cases he
        · intro _; exact ⟨n, by simp⟩
        · intro hc; cases hc
        · intro _ he; cases he
        · intro _ n2 err2 he
          cases he
          trivial

/-- C7, witness: a complete write to the file `out.go`. -/
theorem writeOutput_routes_witness :
    (writeOutput (sampleEnv false) "out.go".toList "package svc\n".toList emptyWorld).2.files
        "out.go".toList = some "package svc\n".toList :=
  ((writeOutput_routes (sampleEnv false) "out.go".toList "package svc\n".toList emptyWorld).2
    (by decide)).2.2.2.2.1 rfl


/-! ## Empty blocks, the type descriptor, the package clause -/

/-- C8: without methods the text of `tmpl` declares the interface with an
empty body, the line `type <InterfaceName> interface {` followed at once by
the line of the closing brace; without dependencies the import block is the
line `import (` followed at once by the line `)`. -/
theorem tmpl_empty_blocks (v : vars) :
    (v.Interface.Funcs = [] →
        Execute tmpl v = .ok
          ("// Code generated by interfacer; DO NOT EDIT\n\npackage ".toList ++ v.PackageName
            ++ "\n\nimport (\n".toList ++ (v.Deps.map importLine).flatten
            ++ ")\n\n// ".toList ++ v.InterfaceName ++ " is an interface generated for ".toList
            ++ v.Type_ ++ ".\ntype ".toList ++ v.InterfaceName
            ++ " interface \x7b\n\x7d\n".toList))
      ∧ (v.Deps = [] →
        Execute tmpl v = .ok
          ("// Code generated by interfacer; DO NOT EDIT\n\npackage ".toList ++ v.PackageName
            ++ "\n\nimport (\n)\n\n// ".toList ++ v.InterfaceName
            ++ " is an interface generated for ".toList
            ++ v.Type_ ++ ".\ntype ".toList ++ v.InterfaceName ++ " interface \x7b\n".toList
            ++ (v.Interface.Funcs.map methodLine).flatten ++ "\x7d\n".toList)) := by
  constructor
  · intro h
    rw [Execute_tmpl, h]
    simp [List.append_assoc]
  · intro h
    rw [Execute_tmpl, h]
    simp [List.append_assoc]

/-- C8, witness: a render model without methods and without dependencies. -/
theorem tmpl_empty_blocks_witness :
    Execute tmpl
        { PackageName := "svc".toList, InterfaceName := "Empty".toList,
          Type_ := "\"example.com/svc.T\"".toList, Deps := [],
          Interface := { Funcs := [], deps := [] } }
      = .ok "// Code generated by interfacer; DO NOT EDIT\n\npackage svc\n\nimport (\n)\n\n// Empty is an interface generated for \"example.com/svc.T\".\ntype Empty interface \x7b\n\x7d\n".toList :=
  (tmpl_empty_blocks
    { PackageName := "svc".toList, InterfaceName := "Empty".toList,
      Type_ := "\"example.com/svc.T\"".toList, Deps := [],
      Interface := { Funcs := [], deps := [] } }).1 rfl

/-- C9: the `Type` of the render model is the quoted
`<Package>.<TypeName>` of the parsed query; the text of `tmpl` depends on it
through the documentation comment line alone, what stands before and after
that line being the same for every `Type`; the text `interfacer` hands to
the canonicalizer is the text for a model built from the query the parser
returned.  `parseQuery` calls the parser once, on
`forPackage + "." + typename`, and returns an error, the parser's wrapped,
exactly when the parser does. -/
theorem Type_in_doc_comment_only (E : Env) (q : Query) (itf : Interface) (s : GoString)
    (forPackage typename : GoString) (w : World) :
    (newVars q itf s).Type_ = "\"".toList ++ (q.Package ++ ".".toList ++ q.TypeName) ++ "\"".toList
      ∧ (∀ v : vars, ∃ before after : GoString, ∀ t : GoString,
          Execute tmpl { v with Type_ := t } = .ok
            (before
              ++ ("// ".toList ++ v.InterfaceName ++ " is an interface generated for ".toList
                    ++ t ++ ".\n".toList)
              ++ after))
      ∧ (∀ (F : Flags) (w0 : World) (src : GoString),
          Event.Source src ∈ (interfacer E F w0).world.trace →
            Event.Source src ∈ w0.trace
              ∨ ∃ fp q0 itf0, E.ParseQuery (fp ++ ".".toList ++ F.optTypename) = .ok q0
                  ∧ Execute tmpl (newVars q0 itf0 F.optAs) = .ok src
                  ∧ (newVars q0 itf0 F.optAs).Type_
                      = "\"".toList ++ (q0.Package ++ ".".toList ++ q0.TypeName) ++ "\"".toList)
      ∧ (parseQuery E forPackage typename w).2
          = w.log (.ParseQuery (forPackage ++ ".".toList ++ typename))
      ∧ ((parseQuery E forPackage typename w).1.2 ≠ none ↔
          ∃ err, E.ParseQuery (forPackage ++ ".".toList ++ typename) = .error err)
      ∧ (∀ err, E.ParseQuery (forPackage ++ ".".toList ++ typename) = .error err →
          (parseQuery E forPackage typename w).1 = (none, some (.wrap err)))
      ∧ (∀ q1, E.ParseQuery (forPackage ++ ".".toList ++ typename) = .ok q1 →
          (parseQuery E forPackage typename w).1 = (some q1, none)) := by
  refine ⟨(newVars_fields q itf s).1, ?_, ?_, ?_, ?_, ?_, ?_⟩
  · intro v
    refine ⟨"// Code generated by interfacer; DO NOT EDIT\n\npackage ".toList ++ v.PackageName
        ++ "\n\nimport (\n".toList ++ (v.Deps.map importLine).flatten ++ ")\n\n".toList,
      "type ".toList ++ v.InterfaceName ++ " interface \x7b\n".toList
        ++ (v.Interface.Funcs.map methodLine).flatten ++ "\x7d\n".toList, ?_⟩
    intro t
    rw [Execute_tmpl]
    simp [List.append_assoc]
  · intro F w0 src hmem
    rcases interfacer_events E F w0 _ hmem with h | h
    · exact Or.inl h
    · right
      obtain ⟨fp, q0, itf0, hq, _, hx⟩ := h
      exact ⟨fp, q0, itf0, hq, hx, (newVars_fields q0 itf0 F.optAs).1⟩
  · rcases parseQuery_cases E forPackage typename w with ⟨err, _, h⟩ | ⟨q1, _, h⟩ <;> rw [h]
  · rcases parseQuery_cases E forPackage typename w with ⟨err, he, h⟩ | ⟨q1, he, h⟩
    · rw [h, he]; simp
    · rw [h, he]; simp
  · intro err he
    rcases parseQuery_cases E forPackage typename w with ⟨err1, he1, h⟩ | ⟨q1, he1, h⟩
    · rw [h]
      rw [he] at he1
      cases he1
      rfl
    · rw [he] at he1; cases he1
  · intro q1 he
    rcases parseQuery_cases E forPackage typename w with ⟨err1, he1, h⟩ | ⟨q2, he1, h⟩
    · rw [he] at he1; cases he1
    · rw [h]
      rw [he] at he1
      cases he1
      rfl

/-- C9, witness: the parser of `failingEnv` rejects every query. -/
theorem Type_in_doc_comment_only_witness :
    (parseQuery failingEnv "example.com/svc".toList "Repo".toList emptyWorld).1
      = (none, some (.wrap (.new "bad query".toList))) :=
  (Type_in_doc_comment_only failingEnv sampleQuery { Funcs := [], deps := [] } "I".toList
    "example.com/svc".toList "Repo".toList emptyWorld).2.2.2.2.2.1 _ rfl

theorem newVars_leading_dot (q : Query) (itf : Interface) (t : GoString) :
    (newVars q itf ('.' :: t)).PackageName = [] := by
  have h : IndexRune ('.' :: t) '.' = 0 := by simp [IndexRune]
  simp [newVars, h, sliceTo]

theorem newVars_empty_package (q : Query) (itf : Interface) (s : GoString)
    (h : (s ≠ [] ∧ '.' ∉ s) ∨ ∃ t, s = '.' :: t) :
    (newVars q itf s).PackageName = []
      ∧ ∃ rest, Execute tmpl (newVars q itf s)
          = .ok ("// Code generated by interfacer; DO NOT EDIT\n\npackage \n".toList ++ rest) := by
  have hp : (newVars q itf s).PackageName = [] := by
    rcases h with ⟨_, h⟩ | ⟨t, rfl⟩
    · exact (newVars_no_dot q itf s h).1
    · exact newVars_leading_dot q itf t
  refine ⟨hp, ?_⟩
  rw [Execute_tmpl, hp]
  exact ⟨"\nimport (\n".toList ++ ((List.map importLine (newVars q itf s).Deps).flatten
    ++ (")\n\n// ".toList ++ ((newVars q itf s).InterfaceName
    ++ (" is an interface generated for ".toList ++ ((newVars q itf s).Type_
    ++ (".\ntype ".toList ++ ((newVars q itf s).InterfaceName ++ (" interface \x7b\n".toList
    ++ ((List.map methodLine (newVars q itf s).Interface.Funcs).flatten
    ++ "\x7d\n".toList))))))))), rfl⟩

/-- C10: for a non-empty `-as` without a `.`, and for an `-as` that begins
with `.`, the package name of the render model is empty, the code supplies no
other, and the text handed to the canonicalizer has the package clause
`package ` followed at once by the line feed. -/
theorem empty_package_clause (E : Env) (F : Flags) (w : World) (q : Query) (itf : Interface)
    (h : (F.optAs ≠ [] ∧ '.' ∉ F.optAs) ∨ ∃ t, F.optAs = '.' :: t) :
    ((newVars q itf F.optAs).PackageName = []
      ∧ ∃ rest, Execute tmpl (newVars q itf F.optAs)
          = .ok ("// Code generated by interfacer; DO NOT EDIT\n\npackage \n".toList ++ rest))
      ∧ ∀ src, Event.Source src ∈ (interfacer E F w).world.trace →
          Event.Source src ∈ w.trace
            ∨ ∃ rest,
                src = "// Code generated by interfacer; DO NOT EDIT\n\npackage \n".toList ++ rest := by
  refine ⟨newVars_empty_package q itf F.optAs h, ?_⟩
  intro src hmem
  rcases interfacer_events E F w _ hmem with h1 | h1
  · exact Or.inl h1
  · right
    obtain ⟨fp, q0, itf0, _, _, hx⟩ := h1
    obtain ⟨_, rest, hr⟩ := newVars_empty_package q0 itf0 F.optAs h
    rw [hx] at hr
    exact ⟨rest, Except.ok.inj hr⟩

/-- C10, witness: the run with `-as RepoIface` hands the canonicalizer a
text whose package clause has no name. -/
theorem empty_package_clause_witness :
    ∃ rest, Execute tmpl (newVars sampleQuery { Funcs := [], deps := [] } "RepoIface".toList)
      = .ok ("// Code generated by interfacer; DO NOT EDIT\n\npackage \n".toList ++ rest) :=
  (empty_package_clause (sampleEnv false)
    ⟨"./svc".toList, "Repo".toList, "RepoIface".toList, "-".toList, false⟩ emptyWorld
    sampleQuery { Funcs := [], deps := [] } (Or.inl (by decide))).1.2

end Interfacer
